import Mathlib

/-!
Verification of the agentic code-generation pipeline (orchestrator, code
generator, build agent, testing agent, error parser, code executor).

Python strings are modelled as `List Char` (`PStr`); Python's `None`-able
values as `Option`; regular-expression searches from the source are modelled
by dedicated scanner functions that reproduce the behaviour of the concrete
patterns appearing in the code (ASCII inputs).  Each definition mirrors one
Python function of the repository; theorems at the end of the file settle
the specification claims.
-/

namespace AgentStudio

/-- Python strings, modelled as lists of characters. -/
abbrev PStr := List Char

/-- Convert a Lean string literal to the `PStr` model. -/
def ps (s : String) : PStr := s.toList

/-- Python `\s` (ASCII whitespace as used by `re` and `str.strip`). -/
def isPySpace (c : Char) : Bool :=
  c = ' ' || c = '\t' || c = '\n' || c = '\r' || c = '\x0b' || c = '\x0c'

/-- Python `\w` (word character; ASCII fragment). -/
def isWordChar (c : Char) : Bool := c.isAlphanum || c = '_'

/-- Python `str.lower()` (ASCII fragment). -/
def pyLower (s : PStr) : PStr := s.map Char.toLower

/-- Python `str.strip()`. -/
def pyStrip (s : PStr) : PStr :=
  ((s.dropWhile isPySpace).reverse.dropWhile isPySpace).reverse

/-- `startsWithL h p` : does `h` start with `p`?  (Python `str.startswith`). -/
def startsWithL : PStr → PStr → Bool
  | _, [] => true
  | [], _ :: _ => false
  | c :: t, p :: q => c = p && startsWithL t q

/-- `endsWithL h s` : does `h` end with `s`?  (Python `str.endswith`). -/
def endsWithL (h s : PStr) : Bool := startsWithL h.reverse s.reverse

/-- `containsSub h n` : does `n` occur as a contiguous substring of `h`?
(Python `n in h`). -/
def containsSub : PStr → PStr → Bool
  | [], n => startsWithL [] n
  | c :: t, n => startsWithL (c :: t) n || containsSub t n

/-- Try a match-at-position function on every suffix of the input
(leftmost match wins), the way `re.search` scans. -/
def firstSome {α : Type} (f : PStr → Option α) : PStr → Option α
  | [] => f []
  | c :: t =>
    match f (c :: t) with
    | some a => some a
    | none => firstSome f t

/-- Does a match-at-position predicate hold at some position of the input? -/
def anyPos (f : PStr → Bool) : PStr → Bool
  | [] => f []
  | c :: t => f (c :: t) || anyPos f t

/-- Python `"x".split("\n")` (used with separator `\n` throughout). -/
def splitNl : PStr → List PStr
  | [] => [[]]
  | c :: t =>
    let r := splitNl t
    if c = '\n' then [] :: r
    else
      match r with
      | [] => [[c]]
      | h :: t2 => (c :: h) :: t2

/-- Python `"\n".join(l)`. -/
def joinNl : List PStr → PStr
  | [] => []
  | [s] => s
  | s :: t => s ++ '\n' :: joinNl t

/-- Decimal rendering of a natural number (for Python `str.format` of ints). -/
def natStr (n : Nat) : PStr := ps (toString n)

/-! ## Error Parser (src/utils/error_parser.py) -/

/-- The five error kinds of `ErrorType` in src/models/schemas.py. -/
inductive ErrorTypeM where
  | syn
  | build
  | runtime
  | logic
  | missingCredentials
deriving DecidableEq

/-- The serialized `value` of each `ErrorType` member. -/
def errorTypeValue : ErrorTypeM → PStr
  | .syn => ps "syntax"
  | .build => ps "build"
  | .runtime => ps "runtime"
  | .logic => ps "logic"
  | .missingCredentials => ps "missing_credentials"

/-- Match-at-position for `MISSING_API_KEY = api[_\s]?key|authorization|authentication`
(case-insensitive; applied to the lowered text). -/
def authAt (s : PStr) : Bool :=
  startsWithL s (ps "authorization") || startsWithL s (ps "authentication") ||
  (startsWithL s (ps "api") &&
    (let r := s.drop 3
     startsWithL r (ps "key") ||
     (match r with
      | c :: r2 => (isPySpace c || c = '_') && startsWithL r2 (ps "key")
      | [] => false)))

/-- `ErrorParser.MISSING_API_KEY.search(text)` (case-insensitive). -/
def authMatch (text : PStr) : Bool := anyPos authAt (pyLower text)

/-- `ErrorParser.DB_CONNECTION_ERROR.search(text)` :
`could not connect|connection refused|access denied`, case-insensitive. -/
def dbConnMatch (text : PStr) : Bool :=
  let l := pyLower text
  containsSub l (ps "could not connect") || containsSub l (ps "connection refused") ||
    containsSub l (ps "access denied")

/-- Match-at-position for `HTTP Error (\d+)` (on the lowered text). -/
def httpErrAt (s : PStr) : Bool :=
  startsWithL s (ps "http error ") &&
  (match s.drop 11 with
   | c :: _ => c.isDigit
   | [] => false)

/-- `ErrorParser.API_ERROR.search(text)` :
`HTTP Error (\d+)|ConnectionError|Timeout`, case-insensitive. -/
def apiErrorMatch (text : PStr) : Bool :=
  let l := pyLower text
  anyPos httpErrAt l || containsSub l (ps "connectionerror") || containsSub l (ps "timeout")

/-- `ErrorParser._determine_error_type(error_message, language)`. -/
def determineErrorType (errorMessage lang : PStr) : ErrorTypeM :=
  let errorLower := pyLower errorMessage
  if authMatch errorMessage then .missingCredentials
  else if lang = ps "python" then
    if containsSub errorLower (ps "syntaxerror") || containsSub errorLower (ps "indentationerror") then .syn
    else if containsSub errorLower (ps "modulenotfounderror") || containsSub errorLower (ps "importerror") then .build
    else if dbConnMatch errorMessage then .runtime
    else if apiErrorMatch errorMessage then .runtime
    else if containsSub errorLower (ps "nameerror") || containsSub errorLower (ps "typeerror") ||
            containsSub errorLower (ps "valueerror") then .runtime
    else .logic
  else if lang = ps "java" then
    if containsSub errorLower (ps "error:") && containsSub errorLower (ps ".java:") then .syn
    else if containsSub errorLower (ps "class not found") ||
            containsSub errorLower (ps "classnotfoundexception") then .runtime
    else if containsSub errorLower (ps "package does not exist") then .build
    else if containsSub errorLower (ps "cannot find symbol") then .syn
    else if containsSub errorLower (ps "nosuchmethoderror") ||
            containsSub errorLower (ps "nosuchfielderror") then .runtime
    else .logic
  else .logic

/-- Tail of the code-placeholder pattern: `\s*=\s*['\"]YOUR_` (on lowered code). -/
def placekeyTail (s : PStr) : Bool :=
  match s.dropWhile isPySpace with
  | '=' :: s2 =>
    (match s2.dropWhile isPySpace with
     | q :: s4 => (q = '\x27' || q = '\x22') && startsWithL s4 (ps "your_")
     | [] => false)
  | _ => false

/-- Match-at-position for `api[_]?key\s*=\s*['\"]YOUR_` (on lowered code). -/
def placekeyAt (s : PStr) : Bool :=
  startsWithL s (ps "api") &&
  (let r := s.drop 3
   (startsWithL r (ps "key") && placekeyTail (r.drop 3)) ||
   (match r with
    | '_' :: t => startsWithL t (ps "key") && placekeyTail (t.drop 3)
    | _ => false))

/-- `re.search(r"api[_]?key\s*=\s*['\"]YOUR_|TODO|REPLACE", code, re.I)` :
an alternation, so a lone `TODO` or `REPLACE` anywhere in the code matches. -/
def placeholderMatch (code : PStr) : Bool :=
  let l := pyLower code
  anyPos placekeyAt l || containsSub l (ps "todo") || containsSub l (ps "replace")

/-- `ErrorParser._detect_missing_credentials(error_message, code)`. -/
def detectMissingCredentials (errorMessage : PStr) (code : Option PStr) : List PStr :=
  let m1 := if authMatch errorMessage then [ps "API Key or Authentication Token"] else []
  match code with
  | none => m1
  | some c =>
    if c = [] then m1
    else
      let m2 := if placeholderMatch c then [ps "API Key (found placeholder in code)"] else []
      let lc := pyLower c
      let m3 :=
        if (containsSub lc (ps "api.openweathermap.org") || containsSub lc (ps "api.time.io")) &&
           !(containsSub lc (ps "api_key")) && !(containsSub lc (ps "apikey"))
        then [ps "API Key for external service"] else []
      m1 ++ m2 ++ m3

/-- Lazy capture `(.+?)` (single-line, at least one char) immediately followed
by the literal `tail`: shortest-first expansion, as Python's lazy quantifier. -/
def lazyCaptureBefore (tail : PStr) : PStr → Option PStr
  | [] => none
  | c :: t =>
    if c = '\n' then none
    else if startsWithL t tail then some [c]
    else
      match lazyCaptureBefore tail t with
      | some r => some (c :: r)
      | none => none

/-- Greedy `(.+)` : longest nonempty run of non-newline characters. -/
def greedyLineRest (s : PStr) : Option PStr :=
  let m := s.takeWhile (fun c => !(c = '\n'))
  if m = [] then none else some m

/-- Literal head of `PYTHON_IMPORT_ERROR`. -/
def pyImportLit : PStr := ps "ModuleNotFoundError: No module named \x27"

/-- Match-at-position for `ModuleNotFoundError: No module named '(.+?)'`;
returns the captured package and the match length. -/
def pyImportErrAt (s : PStr) : Option (PStr × Nat) :=
  if startsWithL s pyImportLit then
    match lazyCaptureBefore (ps "\x27") (s.drop pyImportLit.length) with
    | some cap => some (cap, pyImportLit.length + cap.length + 1)
    | none => none
  else none

/-- Tail ` \(line (\d+)\)` of `PYTHON_SYNTAX_ERROR`; returns the digits. -/
def synTailAt (s : PStr) : Option PStr :=
  if startsWithL s (ps " (line ") then
    let r := s.drop 7
    let d := r.takeWhile Char.isDigit
    if d ≠ [] && startsWithL (r.drop d.length) (ps ")") then some d else none
  else none

/-- Lazy capture for `SyntaxError: (.+?) \(line (\d+)\)`: returns `(message, digits)`. -/
def synCapture : PStr → Option (PStr × PStr)
  | [] => none
  | c :: t =>
    if c = '\n' then none
    else
      match synTailAt t with
      | some d => some ([c], d)
      | none =>
        match synCapture t with
        | some (m, d) => some (c :: m, d)
        | none => none

/-- Match-at-position for `SyntaxError: (.+?) \(line (\d+)\)`. -/
def pySyntaxErrAt (s : PStr) : Option ((PStr × PStr) × Nat) :=
  if startsWithL s (ps "SyntaxError: ") then
    match synCapture (s.drop 13) with
    | some (m, d) => some ((m, d), 13 + m.length + 7 + d.length + 1)
    | none => none
  else none

/-- Match-at-position for `NameError: name '(.+?)' is not defined`. -/
def pyNameErrAt (s : PStr) : Option (PStr × Nat) :=
  if startsWithL s (ps "NameError: name \x27") then
    match lazyCaptureBefore (ps "\x27 is not defined") (s.drop 17) with
    | some cap => some (cap, 17 + cap.length + 16)
    | none => none
  else none

/-- Match-at-position for `JAVA_COMPILE_ERROR = (\w+\.java):(\d+): error: (.+)`
(error_parser.py version, with literal spaces); returns `(file, line, message)`. -/
def epJavaCompileAt (s : PStr) : Option ((PStr × PStr × PStr) × Nat) :=
  let w := s.takeWhile isWordChar
  if w = [] then none
  else
    let r := s.drop w.length
    if startsWithL r (ps ".java:") then
      let r2 := r.drop 6
      let d := r2.takeWhile Char.isDigit
      if d = [] then none
      else
        let r3 := r2.drop d.length
        if startsWithL r3 (ps ": error: ") then
          match greedyLineRest (r3.drop 9) with
          | some m => some ((w ++ ps ".java", d, m), w.length + 6 + d.length + 9 + m.length)
          | none => none
        else none
    else none

/-- Match-at-position for `JAVA_PACKAGE_ERROR = package (.+?) does not exist`. -/
def javaPackageAt (s : PStr) : Option (PStr × Nat) :=
  if startsWithL s (ps "package ") then
    match lazyCaptureBefore (ps " does not exist") (s.drop 8) with
    | some cap => some (cap, 8 + cap.length + 15)
    | none => none
  else none

/-- Match-at-position for
`JAVA_SYMBOL_ERROR = cannot find symbol\s+symbol:\s+(\w+)\s+(\w+)`. -/
def javaSymbolAt (s : PStr) : Option ((PStr × PStr) × Nat) :=
  if startsWithL s (ps "cannot find symbol") then
    let r1 := s.drop 18
    let w1 := r1.takeWhile isPySpace
    if w1 = [] then none
    else
      let r2 := r1.drop w1.length
      if startsWithL r2 (ps "symbol:") then
        let r3 := r2.drop 7
        let w2 := r3.takeWhile isPySpace
        if w2 = [] then none
        else
          let r4 := r3.drop w2.length
          let g1 := r4.takeWhile isWordChar
          if g1 = [] then none
          else
            let r5 := r4.drop g1.length
            let w3 := r5.takeWhile isPySpace
            if w3 = [] then none
            else
              let r6 := r5.drop w3.length
              let g2 := r6.takeWhile isWordChar
              if g2 = [] then none
              else
                some ((g1, g2),
                  18 + w1.length + 7 + w2.length + g1.length + w3.length + g2.length)
      else none
  else none

/-- Match-at-position for
`JAVA_INCOMPATIBLE_TYPES = incompatible types: (.+?) cannot be converted to (.+)`. -/
def javaIncompatAt (s : PStr) : Option ((PStr × PStr) × Nat) :=
  if startsWithL s (ps "incompatible types: ") then
    match lazyCaptureBefore (ps " cannot be converted to ") (s.drop 20) with
    | some a =>
      match greedyLineRest (s.drop (20 + a.length + 24)) with
      | some b => some ((a, b), 20 + a.length + 24 + b.length)
      | none => none
    | none => none
  else none

/-- Match-at-position for
`JAVA_METHOD_ERROR = cannot find symbol\s+symbol:\s+method (.+?)\(`. -/
def javaMethodAt (s : PStr) : Option (PStr × Nat) :=
  if startsWithL s (ps "cannot find symbol") then
    let r1 := s.drop 18
    let w1 := r1.takeWhile isPySpace
    if w1 = [] then none
    else
      let r2 := r1.drop w1.length
      if startsWithL r2 (ps "symbol:") then
        let r3 := r2.drop 7
        let w2 := r3.takeWhile isPySpace
        if w2 = [] then none
        else
          let r4 := r3.drop w2.length
          if startsWithL r4 (ps "method ") then
            match lazyCaptureBefore (ps "(") (r4.drop 7) with
            | some cap =>
              some (cap, 18 + w1.length + 7 + w2.length + 7 + cap.length + 1)
            | none => none
          else none
      else none
  else none

/-- Match-at-position for `ClassNotFoundException: (.+)`. -/
def cnfeAt (s : PStr) : Option (PStr × Nat) :=
  if startsWithL s (ps "ClassNotFoundException: ") then
    match greedyLineRest (s.drop 24) with
    | some m => some (m, 24 + m.length)
    | none => none
  else none

/-- `re.finditer` / `re.findall`: all leftmost non-overlapping matches.
Every pattern we model consumes at least one character per match, so fuel
equal to the input length suffices; fuel decreases by one per step to keep
the recursion structural. -/
def findAllAux {α : Type} (f : PStr → Option (α × Nat)) : Nat → PStr → List α
  | 0, _ => []
  | _ + 1, [] => []
  | fuel + 1, c :: t =>
    match f (c :: t) with
    | some (a, n) => a :: findAllAux f fuel ((c :: t).drop (max n 1))
    | none => findAllAux f fuel t

/-- All matches of an at-position matcher in a text, `re.finditer`-style. -/
def findAll {α : Type} (f : PStr → Option (α × Nat)) (s : PStr) : List α :=
  findAllAux f s.length s

/-- `ErrorParser._extract_root_cause(error_message, error_type, language)`. -/
def extractRootCause (msg : PStr) (et : ErrorTypeM) (lang : PStr) : PStr :=
  if et = .missingCredentials then ps "Required API keys or credentials are missing"
  else
    let generic :=
      match splitNl (pyStrip msg) with
      | [] => ps "Unknown error"
      | l :: _ => l.take 200
    if lang = ps "python" then
      match firstSome pyImportErrAt msg with
      | some (pkg, _) => ps "Missing Python package: " ++ pkg
      | none =>
        match firstSome pySyntaxErrAt msg with
        | some ((m, d), _) => ps "Syntax error on line " ++ d ++ ps ": " ++ m
        | none =>
          match firstSome pyNameErrAt msg with
          | some (n, _) => ps "Undefined variable or function: " ++ n
          | none => generic
    else if lang = ps "java" then
      match firstSome epJavaCompileAt msg with
      | some ((f, d, m), _) =>
        ps "Compilation error in " ++ f ++ ps " line " ++ d ++ ps ": " ++ m
      | none =>
        match firstSome javaPackageAt msg with
        | some (p, _) => ps "Missing dependency: package " ++ p ++ ps " not found"
        | none =>
          match firstSome javaSymbolAt msg with
          | some ((g1, g2), _) => ps "Undefined " ++ g1 ++ ps ": " ++ g2
          | none =>
            if containsSub msg (ps "ClassNotFoundException") then
              let cn :=
                match firstSome cnfeAt msg with
                | some (c, _) => c
                | none => ps "unknown"
              ps "Class not found at runtime: " ++ cn
            else if containsSub msg (ps "NoSuchMethodError") then
              ps "Method signature mismatch - wrong method called or dependency version conflict"
            else generic
    else generic

/-- `ErrorParser._extract_specific_issues(error_message, language)`
(the `language` parameter is unused in the source body). -/
def extractSpecificIssues (msg : PStr) : List PStr :=
  let i1 := (findAll pyImportErrAt msg).map (fun p => ps "Missing package: " ++ p)
  let i2 := (findAll pySyntaxErrAt msg).map
    (fun p => ps "Line " ++ p.2 ++ ps ": " ++ p.1)
  let i3 := (findAll epJavaCompileAt msg).map
    (fun p => p.1 ++ ps ":" ++ p.2.1 ++ ps " - " ++ p.2.2)
  let i4 :=
    if (firstSome javaSymbolAt msg).isSome then
      [ps "Cannot find symbol - missing import or undefined variable/method"]
    else []
  let i5 := (findAll javaPackageAt msg).map
    (fun p => ps "Package not found: " ++ p ++ ps " - add Maven dependency")
  let i6 := (findAll javaIncompatAt msg).map
    (fun p => ps "Type mismatch: " ++ p.1 ++ ps " cannot convert to " ++ p.2)
  let i7 := (findAll javaMethodAt msg).map (fun m => ps "Method not found: " ++ m)
  let i8 :=
    if containsSub msg (ps "ClassNotFoundException") then
      [ps "Class not found at runtime - check classpath or Maven dependencies"]
    else []
  let i9 :=
    if containsSub msg (ps "NoSuchMethodError") then
      [ps "Method not found at runtime - dependency version conflict or wrong method signature"]
    else []
  let i10 :=
    if dbConnMatch msg then
      [ps "Database connection failed - verify PostgreSQL is running and credentials are correct"]
    else []
  let i11 :=
    if apiErrorMatch msg then
      [ps "External API call failed - check network connectivity and API endpoint"]
    else []
  let all := i1 ++ i2 ++ i3 ++ i4 ++ i5 ++ i6 ++ i7 ++ i8 ++ i9 ++ i10 ++ i11
  if all = [] then [ps "See raw error for details"] else all

/-- `ErrorParser._suggest_fixes(error_type, issues, language)`
(the `issues` parameter is unused in the source body). -/
def suggestFixes (et : ErrorTypeM) (lang : PStr) : List PStr :=
  match et with
  | .syn =>
    [ps "Review code syntax and fix any typos or structural errors",
     ps "Ensure proper indentation (Python) or bracket matching (Java)"]
  | .build =>
    if lang = ps "python" then
      [ps "Add missing packages to requirements.txt",
       ps "Ensure all imports are available and correctly spelled"]
    else
      [ps "Add missing Maven dependencies to pom.xml",
       ps "Verify package names and imports",
       ps "Check Maven repository connectivity",
       ps "Use correct groupId:artifactId:version format"]
  | .runtime =>
    [ps "Add proper error handling (try-except or try-catch)",
     ps "Validate inputs and handle edge cases",
     ps "Check external service availability (database, APIs)"]
  | .missingCredentials =>
    [ps "Prompt user to provide required credentials",
     ps "Add credential parameters to function signatures"]
  | .logic =>
    [ps "Review algorithm logic and data flow",
     ps "Add debug logging to trace execution",
     ps "Verify expected vs actual behavior"]

/-- Structured error information, `ErrorParser.parse_error`'s return dict. -/
structure ParsedError where
  errorType : ErrorTypeM
  rootCause : PStr
  specificIssues : List PStr
  suggestedFixes : List PStr
  missingCreds : List PStr
  rawError : PStr
deriving DecidableEq

/-- `ErrorParser.parse_error(error_message, language, code)`. -/
def parseError (msg lang : PStr) (code : Option PStr) : ParsedError :=
  let et := determineErrorType msg lang
  { errorType := et
    rootCause := extractRootCause msg et lang
    specificIssues := extractSpecificIssues msg
    suggestedFixes := suggestFixes et lang
    missingCreds := detectMissingCredentials msg code
    rawError := msg }

/-- Python `str.upper()` (ASCII fragment). -/
def pyUpper (s : PStr) : PStr := s.map Char.toUpper

/-- `ErrorParser.format_error_context(parsed_error, iteration, max_iterations)`,
instantiating `ERROR_CONTEXT_TEMPLATE` from src/config/prompts.py. -/
def formatErrorContext (pe : ParsedError) (iteration maxIterations : Nat) : PStr :=
  ps "\n**Previous Attempt Failed:**\n\n**Error Type:** " ++
    pyUpper (errorTypeValue pe.errorType) ++
  ps "\n**Root Cause:** " ++ pe.rootCause ++
  ps "\n\n**Specific Issues:**\n" ++
    joinNl (pe.specificIssues.map (fun i => ps "- " ++ i)) ++
  ps "\n\n**Required Fixes:**\n" ++
    joinNl (pe.suggestedFixes.map (fun f => ps "- " ++ f)) ++
  ps "\n\n**Iteration:** " ++ natStr iteration ++ ps "/" ++ natStr maxIterations ++
  ps "\n"

/-! ## Dependency Extractor (src/agents/code_generator.py, `_extract_dependencies`) -/

/-- Python `s.split(sep)` for a one-character separator. -/
def splitOnC (sep : Char) : PStr → List PStr
  | [] => [[]]
  | c :: t =>
    let r := splitOnC sep t
    if c = sep then [] :: r
    else
      match r with
      | [] => [[c]]
      | h :: t2 => (c :: h) :: t2

/-- Greedy `\s*` directly followed by a greedy single-line `(.+)`, with the
backtracking Python's `re` performs when the whitespace run ends the line:
returns the captured group and the number of characters consumed. -/
def tryCapAt (rest : PStr) (j : Nat) : Option (PStr × Nat) :=
  match rest.drop j with
  | [] => none
  | c :: _ =>
    if c = '\n' then none
    else
      let cap := (rest.drop j).takeWhile (fun c => !(c = '\n'))
      some (cap, j + cap.length)

/-- Descending backtracking search for `\s*(.+)` (largest whitespace skip first). -/
def capRestAfterWsAux (rest : PStr) : Nat → Option (PStr × Nat)
  | 0 => tryCapAt rest 0
  | j + 1 =>
    match tryCapAt rest (j + 1) with
    | some r => some r
    | none => capRestAfterWsAux rest j

/-- Match `\s*(.+)` at the start of `rest` (group and consumed length). -/
def capRestAfterWs (rest : PStr) : Option (PStr × Nat) :=
  capRestAfterWsAux rest (rest.takeWhile isPySpace).length

/-- Match-at-position for `kw\s+(\w+)` (used with `kw = import` / `kw = from`
for the `^import\s+(\w+)` and `^from\s+(\w+)` MULTILINE patterns). -/
def importKwAt (kw : PStr) (s : PStr) : Option (PStr × Nat) :=
  if startsWithL s kw then
    let r := s.drop kw.length
    let w := r.takeWhile isPySpace
    if w = [] then none
    else
      let r2 := r.drop w.length
      let g := r2.takeWhile isWordChar
      if g = [] then none else some (g, kw.length + w.length + g.length)
  else none

/-- `re.findall` of a `(?m)^`-anchored pattern: the matcher may fire only at
the start of the text or right after a newline; non-overlapping. -/
def findLineAnchoredAux {α : Type} (f : PStr → Option (α × Nat)) :
    Nat → Bool → PStr → List α
  | 0, _, _ => []
  | _ + 1, _, [] => []
  | fuel + 1, atStart, c :: t =>
    if atStart then
      match f (c :: t) with
      | some (a, n) =>
        let k := max n 1
        let lastC := ((c :: t).take k).getLast?
        a :: findLineAnchoredAux f fuel (lastC == some '\n') ((c :: t).drop k)
      | none => findLineAnchoredAux f fuel (c == '\n') t
    else findLineAnchoredAux f fuel (c == '\n') t

/-- All matches of a line-anchored pattern in a text. -/
def findLineAnchored {α : Type} (f : PStr → Option (α × Nat)) (s : PStr) : List α :=
  findLineAnchoredAux f s.length true s

/-- Match-at-position for `#\s*REQUIRES:\s*(.+)` (the Python `REQUIRES`
directive of `_extract_dependencies`). -/
def requiresAt (s : PStr) : Option (PStr × Nat) :=
  match s with
  | '#' :: t =>
    let w := t.takeWhile isPySpace
    let r := t.drop w.length
    if startsWithL r (ps "REQUIRES:") then
      match capRestAfterWs (r.drop 9) with
      | some (cap, n2) => some (cap, 1 + w.length + 9 + n2)
      | none => none
    else none
  | _ => none

/-- `builtin_modules` in `CodeGeneratorAgent._extract_dependencies`. -/
def builtinModules : List PStr :=
  [ps "os", ps "sys", ps "time", ps "datetime", ps "json", ps "csv", ps "re",
   ps "collections", ps "itertools", ps "functools", ps "math", ps "random",
   ps "logging", ps "typing", ps "unittest", ps "pathlib", ps "io",
   ps "subprocess", ps "tempfile", ps "shutil", ps "copy", ps "pickle",
   ps "threading", ps "multiprocessing", ps "argparse", ps "configparser",
   ps "email", ps "urllib", ps "http", ps "socket", ps "ssl", ps "asyncio",
   ps "hashlib", ps "hmac", ps "secrets", ps "uuid", ps "enum",
   ps "dataclasses", ps "abc", ps "sqlite3", ps "dbm", ps "shelve"]

/-- `project_modules` in `CodeGeneratorAgent._extract_dependencies`.
Note: this set contains `test` and does NOT contain `lib` or `common`. -/
def projectModules : List PStr :=
  [ps "src", ps "app", ps "tests", ps "test", ps "config", ps "utils",
   ps "models", ps "schemas", ps "database", ps "api", ps "core",
   ps "services", ps "controllers", ps "views", ps "main"]

/-- `module_to_pip` in `CodeGeneratorAgent._extract_dependencies`. -/
def moduleToPip : List (PStr × PStr) :=
  [(ps "bs4", ps "beautifulsoup4"), (ps "PIL", ps "Pillow"),
   (ps "Pillow", ps "Pillow"), (ps "sklearn", ps "scikit-learn"),
   (ps "cv2", ps "opencv-python"), (ps "yaml", ps "PyYAML"),
   (ps "lxml", ps "lxml"), (ps "np", ps "numpy"), (ps "pd", ps "pandas"),
   (ps "pandas", ps "pandas"), (ps "numpy", ps "numpy"),
   (ps "requests", ps "requests"), (ps "matplotlib", ps "matplotlib"),
   (ps "bs", ps "beautifulsoup4"), (ps "scipy", ps "scipy"),
   (ps "sympy", ps "sympy"), (ps "seaborn", ps "seaborn"),
   (ps "scikit", ps "scikit-learn")]

/-- The project-internal filter set exactly as the claim (and spec section 4.4)
states it, including `lib` and `common`. -/
def claimedProjectInternalSet : List PStr :=
  [ps "src", ps "app", ps "tests", ps "config", ps "utils", ps "models",
   ps "schemas", ps "database", ps "api", ps "core", ps "services",
   ps "controllers", ps "views", ps "main", ps "lib", ps "common"]

/-- Association-list read (Python `dict.get(k, default)` with default below). -/
def assocGet (l : List (PStr × PStr)) (k : PStr) : Option PStr :=
  match l with
  | [] => none
  | (k2, v) :: t => if k2 = k then some v else assocGet t k

/-- Remove duplicates preserving first-seen order (`seen`/`deduped` loop). -/
def dedupFirstAux (seen : List PStr) : List PStr → List PStr
  | [] => []
  | d :: t => if d ∈ seen then dedupFirstAux seen t else d :: dedupFirstAux (d :: seen) t

/-- Order-preserving de-duplication. -/
def dedupFirst (l : List PStr) : List PStr := dedupFirstAux [] l

/-- The pip-name normalization of one dependency entry (`name.split(".")[0]`
mapped through `module_to_pip`). -/
def pipTarget (d : PStr) : PStr :=
  let name := pyStrip d
  let top := name.takeWhile (fun c => !(c = '.'))
  (assocGet moduleToPip top).getD top

/-- The Python branch of `CodeGeneratorAgent._extract_dependencies(code, language)`. -/
def extractDependenciesPy (code : PStr) : List PStr :=
  let imports := findLineAnchored (importKwAt (ps "import")) code
  let fromImports := findLineAnchored (importKwAt (ps "from")) code
  let requiresDeps :=
    match firstSome requiresAt code with
    | some (grp, _) =>
      (((splitOnC ',' grp).map pyStrip).filter
        (fun d => d ≠ [] && !startsWithL d (ps "#")))
    | none => []
  let deps0 := imports ++ fromImports ++ requiresDeps
  let deps1 := deps0.filter (fun d =>
    d ≠ [] && pyStrip d ≠ [] &&
    pyLower (pyStrip d) ∉ builtinModules &&
    pyLower (pyStrip d) ∉ projectModules &&
    !startsWithL (pyLower (pyStrip d)) (ps "none"))
  let normalized := deps1.foldl (fun acc d =>
    if containsSub d (ps "==") || containsSub d (ps ">=") || containsSub d (ps "<=") then
      acc ++ [d]
    else
      let pipName := pipTarget d
      if pipName ∈ acc then acc else acc ++ [pipName]) []
  dedupFirst normalized

/-! ## Response splitting (src/agents/code_generator.py) -/

/-- Lazy capture `(.+?)` with `re.DOTALL` (newlines allowed), at least one
character, immediately followed by `tail`. -/
def lazyCaptureBeforeDotAll (tail : PStr) : PStr → Option PStr
  | [] => none
  | c :: t =>
    if startsWithL t tail then some [c]
    else
      match lazyCaptureBeforeDotAll tail t with
      | some r => some (c :: r)
      | none => none

/-- Match-at-position for a fenced block ``` openFence (.+?) ``` (DOTALL). -/
def mdBlockAt (openFence : PStr) (s : PStr) : Option PStr :=
  if startsWithL s openFence then lazyCaptureBeforeDotAll (ps "```") (s.drop openFence.length)
  else none

/-- `CodeGeneratorAgent._extract_code_from_markdown(text, language)`. -/
def extractCodeFromMarkdown (text langValue : PStr) : PStr :=
  match firstSome (mdBlockAt (ps "```" ++ langValue ++ ps "\n")) text with
  | some g => pyStrip g
  | none =>
    match firstSome (mdBlockAt (ps "```\n")) text with
    | some g => pyStrip g
    | none => pyStrip text

/-- `re.sub(r"^```[\w]*\n", "", content)`. -/
def stripLeadingFence (c : PStr) : PStr :=
  if startsWithL c (ps "```") then
    let w := (c.drop 3).takeWhile isWordChar
    if startsWithL ((c.drop 3).drop w.length) (ps "\n") then c.drop (3 + w.length + 1)
    else c
  else c

/-- `re.sub(r"\n```$", "", content)` (`$` matches at the end, or before a
final newline). -/
def stripTrailingFence (c : PStr) : PStr :=
  if endsWithL c (ps "\n```") then c.take (c.length - 4)
  else if endsWithL c (ps "\n```\n") then c.take (c.length - 5) ++ [ '\n' ]
  else c

/-- Python's length-bounded `takeWhile`-not helper for dropping at most one
`dropWhile`-worth of lines; fuel-structured section splitter for FILE markers:
each marker line opens a section whose body runs to the next marker line. -/
def markerSectionsAux (markerOf : PStr → Option PStr) :
    Nat → List PStr → List (PStr × List PStr)
  | 0, _ => []
  | _ + 1, [] => []
  | fuel + 1, l :: t =>
    match markerOf l with
    | some fn =>
      (fn, t.takeWhile (fun x => (markerOf x).isNone)) ::
        markerSectionsAux markerOf fuel (t.dropWhile (fun x => (markerOf x).isNone))
    | none => markerSectionsAux markerOf fuel t

/-- Split a marker-bearing text (as a line list) into `(filename, body lines)`
sections, in order. -/
def markerSections (markerOf : PStr → Option PStr) (ls : List PStr) :
    List (PStr × List PStr) :=
  markerSectionsAux markerOf ls.length ls

/-- One line of `generate_code`'s FILE-marker pattern
`(?m)^(?:#|//)\s*FILE:\s*(.+)$` (case-sensitive): returns the raw captured
filename when the line is a marker. -/
def genMarkerLine (line : PStr) : Option PStr :=
  let afterComment :=
    if startsWithL line (ps "//") then some (line.drop 2)
    else if startsWithL line (ps "#") then some (line.drop 1)
    else none
  match afterComment with
  | none => none
  | some r =>
    let w := r.takeWhile isPySpace
    let r2 := r.drop w.length
    if startsWithL r2 (ps "FILE:") then
      match capRestAfterWs (r2.drop 5) with
      | some (cap, _) => some cap
      | none => none
    else none

/-- Fence normalization in `generate_code`'s marker branch: applied only when
the body both starts and ends with a triple fence. -/
def fenceNormalizeGuarded (content : PStr) : PStr :=
  if startsWithL content (ps "```") && endsWithL content (ps "```") then
    stripTrailingFence (stripLeadingFence content)
  else content

/-- The FILE-marker branch of `CodeGeneratorAgent.generate_code`'s response
splitting: one `(filename, code)` entry is appended per marker, with no
de-duplication.  Bodies are the stripped text between markers. -/
def genCodeMarkerFiles (text : PStr) : List (PStr × PStr) :=
  (markerSections genMarkerLine (splitNl text)).map (fun sec =>
    (pyStrip sec.1, fenceNormalizeGuarded (pyStrip (joinNl sec.2))))

/-- `generate_code`'s pipeline up to the marker branch: the response is first
passed through `_extract_code_from_markdown`, then scanned for FILE markers. -/
def genCodeFilesFromResponse (text langValue : PStr) : List (PStr × PStr) :=
  genCodeMarkerFiles (extractCodeFromMarkdown text langValue)

/-- One line of `generate_project_code`'s FILE-marker pattern
`(?m)^#\s*FILE:\s*(.+)$` with `re.IGNORECASE` (only `#` comments). -/
def projMarkerLine (line : PStr) : Option PStr :=
  match line with
  | '#' :: r =>
    let w := r.takeWhile isPySpace
    let r2 := r.drop w.length
    if startsWithL (pyLower r2) (ps "file:") then
      match capRestAfterWs (r2.drop 5) with
      | some (cap, _) => some cap
      | none => none
    else none
  | _ => none

/-- The `conversions` map of `CodeGeneratorAgent._convert_javax_to_jakarta`
(`javax.sql` deliberately absent). -/
def javaxConversions : List (PStr × PStr) :=
  [(ps "javax.persistence", ps "jakarta.persistence"),
   (ps "javax.validation", ps "jakarta.validation"),
   (ps "javax.servlet", ps "jakarta.servlet"),
   (ps "javax.transaction", ps "jakarta.transaction"),
   (ps "javax.ejb", ps "jakarta.ejb"),
   (ps "javax.annotation", ps "jakarta.annotation"),
   (ps "javax.inject", ps "jakarta.inject"),
   (ps "javax.ws.rs", ps "jakarta.ws.rs"),
   (ps "javax.jms", ps "jakarta.jms"),
   (ps "javax.mail", ps "jakarta.mail")]

/-- Match-at-position for `\bimport\s+pkg\b` given whether the previous
character is a word character (for the leading `\b`); returns match length. -/
def importPkgAt (pkg : PStr) (prevWord : Bool) (s : PStr) : Option Nat :=
  if prevWord then none
  else if startsWithL s (ps "import") then
    let r := s.drop 6
    let w := r.takeWhile isPySpace
    if w = [] then none
    else
      let r2 := r.drop w.length
      if startsWithL r2 pkg then
        match r2.drop pkg.length with
        | [] => some (6 + w.length + pkg.length)
        | c :: _ => if isWordChar c then none else some (6 + w.length + pkg.length)
      else none
  else none

/-- `re.sub(rf"\bimport\s+{pkg}\b", f"import {target}", code)` : replace every
non-overlapping occurrence, scanning left to right. -/
def replaceImportAux (pkg target : PStr) : Nat → Bool → PStr → PStr
  | 0, _, s => s
  | _ + 1, _, [] => []
  | fuel + 1, prevWord, c :: t =>
    match importPkgAt pkg prevWord (c :: t) with
    | some n =>
      let k := max n 1
      let lastC := ((c :: t).take k).getLast?
      (ps "import " ++ target) ++
        replaceImportAux pkg target fuel (lastC.any isWordChar) ((c :: t).drop k)
    | none => c :: replaceImportAux pkg target fuel (isWordChar c) t

/-- `CodeGeneratorAgent._convert_javax_to_jakarta(code)` (returns the
rewritten code; the legacy namespaces are replaced in map order). -/
def convertJavaxToJakarta (code : PStr) : PStr :=
  javaxConversions.foldl (fun c conv => replaceImportAux conv.1 conv.2 c.length false c) code

/-- The brace-balancing fix of `generate_project_code`: when `{` counts exceed
`}` counts, append the missing closing braces; never remove any. -/
def braceFix (content : PStr) : PStr :=
  let opens := (content.filter (fun c => c = '\x7b')).length
  let closes := (content.filter (fun c => c = '\x7d')).length
  if closes < opens then
    content ++ '\n' :: (List.replicate (opens - closes) (ps "\x7d\n")).flatten
  else content

/-- The per-marker entries of `generate_project_code` before de-duplication:
filename stripped, body stripped and fence-normalized (unconditionally),
empty bodies dropped, Java files passed through the jakarta and brace fixes. -/
def projParsedEntries (text langValue : PStr) : List (PStr × PStr) :=
  (markerSections projMarkerLine (splitNl text)).filterMap (fun sec =>
    let filename := pyStrip sec.1
    let content1 := pyStrip (stripTrailingFence (stripLeadingFence (pyStrip (joinNl sec.2))))
    if content1 = [] then none
    else
      let content2 :=
        if endsWithL filename (ps ".java") && langValue = ps "java" then
          braceFix (convertJavaxToJakarta content1)
        else content1
      some (filename, content2))

/-- Python-dict insertion: replace the value in place if the key exists
(keeping the first-seen position), else append. -/
def updAssoc (l : List (PStr × PStr)) (k v : PStr) : List (PStr × PStr) :=
  match l with
  | [] => [(k, v)]
  | (k2, v2) :: t => if k2 = k then (k2, v) :: t else (k2, v2) :: updAssoc t k v

/-- Key membership in the association list (`filename in seen_files`). -/
def hasKey (l : List (PStr × PStr)) (k : PStr) : Bool :=
  match l with
  | [] => false
  | (k2, _) :: t => if k2 = k then true else hasKey t k

/-- Value lookup in the association list. -/
def lookupA (l : List (PStr × PStr)) (k : PStr) : Option PStr :=
  match l with
  | [] => none
  | (k2, v) :: t => if k2 = k then some v else lookupA t k

/-- The `seen_files` de-duplication loop of `generate_project_code`: keep the
last body per filename (dict insertion), flag a warning when a duplicate
filename is inserted. -/
def dedupKeepLast (entries : List (PStr × PStr)) : List (PStr × PStr) × Bool :=
  entries.foldl (fun acc e => (updAssoc acc.1 e.1 e.2, acc.2 || hasKey acc.1 e.1))
    ([], false)

/-- The files returned by `generate_project_code`'s marker branch, with the
duplicate-warning flag. -/
def generateProjectFiles (text langValue : PStr) : List (PStr × PStr) × Bool :=
  dedupKeepLast (projParsedEntries text langValue)

/-- The value of the last entry with key `k` in a `(filename, body)` list
(for stating the keep-last property of the de-duplication). -/
def lastVal (entries : List (PStr × PStr)) (k : PStr) : Option PStr :=
  match entries with
  | [] => none
  | e :: t =>
    match lastVal t k with
    | some v => some v
    | none => if e.1 = k then some e.2 else none

/-! ## Session loading and error-kind migration (src/agents/orchestrator.py) -/

/-- The serialized values of the five known `ErrorType` members
(`allowed_error_types` in `OrchestratorAgent.load_session`). -/
def allowedErrorTypes : List PStr :=
  [ps "syntax", ps "build", ps "runtime", ps "logic", ps "missing_credentials"]

/-- The migration step of `OrchestratorAgent.load_session` applied to one
iteration record's `error_type` field: `if et and et not in allowed:
iteration["error_type"] = ErrorType.LOGIC.value`.  `none` models a missing or
JSON-null field; note that the guard `if et` skips falsy values, i.e. both
`None` and the empty string. -/
def normalizeErrorTypeField (et : Option PStr) : Option PStr :=
  match et with
  | none => none
  | some s => if s ≠ [] ∧ s ∉ allowedErrorTypes then some (ps "logic") else some s

/-- The migration loop over all iteration records of a persisted session
(each record projected to its `error_type` field). -/
def migrateIterations (l : List (Option PStr)) : List (Option PStr) :=
  l.map normalizeErrorTypeField

/-- Pydantic validation of `IterationLog.error_type : Optional[ErrorType]`:
absent/null is accepted, a string must be one of the five known values. -/
def validErrorTypeField (et : Option PStr) : Bool :=
  match et with
  | none => true
  | some s => s ∈ allowedErrorTypes

/-- Does a persisted record (projected to its `error_type` fields) pass schema
validation after `load_session`'s migration step? -/
def loadSessionValidates (l : List (Option PStr)) : Bool :=
  (migrateIterations l).all validErrorTypeField

/-! ## Build Agent, JVM builds (src/agents/build_agent.py) -/

/-- Match-at-position for `public\s+class\s+(\w+)`. -/
def publicClassAt (s : PStr) : Option (PStr × Nat) :=
  if startsWithL s (ps "public") then
    let r := s.drop 6
    let w1 := r.takeWhile isPySpace
    if w1 = [] then none
    else
      let r2 := r.drop w1.length
      if startsWithL r2 (ps "class") then
        let r3 := r2.drop 5
        let w2 := r3.takeWhile isPySpace
        if w2 = [] then none
        else
          let r4 := r3.drop w2.length
          let g := r4.takeWhile isWordChar
          if g = [] then none else some (g, 6 + w1.length + 5 + w2.length + g.length)
      else none
  else none

/-- Match-at-position for `import\s+([\w.]+);` (line-anchored in the source). -/
def importSemiAt (s : PStr) : Option (PStr × Nat) :=
  if startsWithL s (ps "import") then
    let r := s.drop 6
    let w := r.takeWhile isPySpace
    if w = [] then none
    else
      let r2 := r.drop w.length
      let g := r2.takeWhile (fun c => isWordChar c || c = '.')
      if g = [] then none
      else
        match r2.drop g.length with
        | ';' :: _ => some (g, 6 + w.length + g.length + 1)
        | _ => none
  else none

/-- Match-at-position for `(\w+\.java):(\d+):\s*error:\s*(.+)`
(`BuildAgent._parse_java_errors` version, with `\s*` around `error:`). -/
def baJavaErrAt (s : PStr) : Option ((PStr × PStr × PStr) × Nat) :=
  let w := s.takeWhile isWordChar
  if w = [] then none
  else
    let r := s.drop w.length
    if startsWithL r (ps ".java:") then
      let r2 := r.drop 6
      let d := r2.takeWhile Char.isDigit
      if d = [] then none
      else
        match r2.drop d.length with
        | ':' :: r4 =>
          let ws1 := r4.takeWhile isPySpace
          let r5 := r4.drop ws1.length
          if startsWithL r5 (ps "error:") then
            match capRestAfterWs (r5.drop 6) with
            | some (cap, n2) =>
              some ((w ++ ps ".java", d, cap),
                w.length + 6 + d.length + 1 + ws1.length + 6 + n2)
            | none => none
          else none
        | _ => none
    else none

/-- `BuildAgent._parse_java_errors(error_output)`: `(errors, fixes)`. -/
def parseJavaErrors (errorOutput : PStr) : List PStr × List PStr :=
  let found := findAll baJavaErrAt errorOutput
  let errors := found.map (fun m => m.1 ++ ps ":" ++ m.2.1 ++ ps " - " ++ m.2.2)
  let f1 :=
    if containsSub errorOutput (ps "cannot find symbol") then
      [ps "Missing import statement or undefined variable",
       ps "Check if all classes and methods are properly imported"]
    else []
  let f2 :=
    if containsSub errorOutput (ps "class, interface, or enum expected") then
      [ps "Invalid class structure - ensure proper class declaration"]
    else []
  let f3 :=
    if containsSub errorOutput (ps "incompatible types") then
      [ps "Type mismatch - check variable types and method return types"]
    else []
  let f4 :=
    if containsSub errorOutput (ps "method does not override") then
      [ps "Remove @Override annotation or implement the correct method signature"]
    else []
  let f5 :=
    if containsSub errorOutput (ps "unreachable statement") then
      [ps "Remove code after return/throw statements"]
    else []
  let f6 :=
    if containsSub errorOutput (ps "variable might not have been initialized") then
      [ps "Initialize variables before use"]
    else []
  let f7 :=
    if containsSub errorOutput (ps "package does not exist") ||
       containsSub errorOutput (ps "cannot find symbol") then
      [ps "Add required Maven dependencies to pom.xml",
       ps "Ensure all external libraries are properly declared"]
    else []
  let fixes := f1 ++ f2 ++ f3 ++ f4 ++ f5 ++ f6 ++ f7
  let errorsF := if errors = [] then [errorOutput.take 500] else errors
  let fixesF :=
    if fixes = [] then
      [ps "Review Java syntax and structure", ps "Check Maven dependencies"]
    else fixes
  (errorsF, fixesF)

/-- A Maven coordinate triple `(groupId, artifactId, version)`. -/
abbrev MavenDep := PStr × PStr × PStr

/-- `dependency_map` of `BuildAgent._detect_java_dependencies`, in source
(insertion) order; the first matching prefix wins. -/
def baDependencyMap : List (PStr × MavenDep) :=
  [(ps "com.google.gson", (ps "com.google.code.gson", ps "gson", ps "2.10.1")),
   (ps "org.apache.http", (ps "org.apache.httpcomponents", ps "httpclient", ps "4.5.14")),
   (ps "org.apache.commons.lang3", (ps "org.apache.commons", ps "commons-lang3", ps "3.14.0")),
   (ps "org.json", (ps "org.json", ps "json", ps "20231013")),
   (ps "com.fasterxml.jackson", (ps "com.fasterxml.jackson.core", ps "jackson-databind", ps "2.16.0")),
   (ps "org.springframework", (ps "org.springframework.boot", ps "spring-boot-starter-web", ps "3.1.5")),
   (ps "org.springframework.security", (ps "org.springframework.boot", ps "spring-boot-starter-security", ps "3.1.5")),
   (ps "org.springframework.security.authentication", (ps "org.springframework.boot", ps "spring-boot-starter-security", ps "3.1.5")),
   (ps "org.springframework.security.config", (ps "org.springframework.boot", ps "spring-boot-starter-security", ps "3.1.5")),
   (ps "org.springframework.security.crypto", (ps "org.springframework.boot", ps "spring-boot-starter-security", ps "3.1.5")),
   (ps "org.springframework.data.jpa", (ps "org.springframework.boot", ps "spring-boot-starter-data-jpa", ps "3.1.5")),
   (ps "com.mysql", (ps "org.mariadb.jdbc", ps "mariadb-java-client", ps "3.1.4")),
   (ps "mysql", (ps "org.mariadb.jdbc", ps "mariadb-java-client", ps "3.1.4")),
   (ps "org.springframework.web", (ps "org.springframework.boot", ps "spring-boot-starter-web", ps "3.1.5")),
   (ps "org.springframework.http", (ps "org.springframework.boot", ps "spring-boot-starter-web", ps "3.1.5")),
   (ps "jakarta.persistence", (ps "org.springframework.boot", ps "spring-boot-starter-data-jpa", ps "3.1.5")),
   (ps "jakarta.validation", (ps "org.springframework.boot", ps "spring-boot-starter-validation", ps "3.1.5")),
   (ps "javax.validation", (ps "org.springframework.boot", ps "spring-boot-starter-validation", ps "3.1.5")),
   (ps "jakarta.", (ps "org.springframework.boot", ps "spring-boot-starter-web", ps "3.1.5")),
   (ps "org.springframework.boot.actuate", (ps "org.springframework.boot", ps "spring-boot-starter-actuator", ps "3.1.5")),
   (ps "lombok", (ps "org.projectlombok", ps "lombok", ps "1.18.26")),
   (ps "io.jsonwebtoken", (ps "io.jsonwebtoken", ps "jjwt-api", ps "0.11.5")),
   (ps "org.junit", (ps "org.junit.jupiter", ps "junit-jupiter-api", ps "5.10.0")),
   (ps "org.mockito", (ps "org.mockito", ps "mockito-core", ps "5.5.0")),
   (ps "org.springframework.boot", (ps "org.springframework.boot", ps "spring-boot-starter-web", ps "3.1.5")),
   (ps "org.slf4j", (ps "org.slf4j", ps "slf4j-simple", ps "2.0.9")),
   (ps "io.swagger.v3.oas", (ps "org.springdoc", ps "springdoc-openapi-starter-webmvc-ui", ps "2.2.0")),
   (ps "org.springdoc", (ps "org.springdoc", ps "springdoc-openapi-starter-webmvc-ui", ps "2.2.0")),
   (ps "jakarta.enterprise.context", (ps "jakarta.enterprise", ps "jakarta.enterprise.cdi-api", ps "4.0.1")),
   (ps "jakarta.enterprise.inject", (ps "jakarta.enterprise", ps "jakarta.enterprise.cdi-api", ps "4.0.1")),
   (ps "jakarta.inject", (ps "jakarta.inject", ps "jakarta.inject-api", ps "2.0.1")),
   (ps "org.apache.commons.dbcp2", (ps "org.apache.commons", ps "commons-dbcp2", ps "2.11.0"))]

/-- First map entry whose prefix matches the import (`for ...: break`). -/
def firstPrefixMatch (m : List (PStr × MavenDep)) (imp : PStr) : Option MavenDep :=
  match m with
  | [] => none
  | (p, v) :: t => if startsWithL imp p then some v else firstPrefixMatch t imp

/-- `BuildAgent._detect_java_dependencies(code)` (may append duplicates,
exactly as the source does). -/
def detectJavaDependencies (code : PStr) : List MavenDep :=
  (findLineAnchored importSemiAt code).foldl (fun acc imp =>
    if startsWithL imp (ps "java.") then acc
    else if startsWithL imp (ps "javax.sql") || startsWithL imp (ps "javax.naming") then acc
    else
      match firstPrefixMatch baDependencyMap imp with
      | some dep => acc ++ [dep]
      | none => acc) []

/-- `groupId:artifactId:version` rendering of a coordinate. -/
def tripleStr (d : MavenDep) : PStr := d.1 ++ ps ":" ++ d.2.1 ++ ps ":" ++ d.2.2

/-- `_add_pom_dep`: append unless the coordinate triple is already present. -/
def addPomDep (pomDeps : List MavenDep) (d : MavenDep) : List MavenDep :=
  if d ∈ pomDeps then pomDeps else pomDeps ++ [d]

/-- A caller-provided dependency: a `groupId:artifactId:version` string or a
structured record (`dict` in the source). -/
inductive JDep where
  | str (s : PStr)
  | record (groupId artifactId version : PStr)
deriving DecidableEq

/-- The dependency normalization of `BuildAgent._build_java`: provided
dependencies, then auto-detected ones, then (for Spring) essential starters;
returns `(pom_deps, result_deps)`. -/
def mergeJavaDeps (code : PStr) (deps : List JDep) : List MavenDep × List PStr :=
  let detected := detectJavaDependencies code
  let step1 := deps.foldl (fun (acc : List MavenDep × List PStr) d =>
    match d with
    | .record g a v =>
      let coord := tripleStr (g, a, v)
      (addPomDep acc.1 (g, a, v), if coord ∈ acc.2 then acc.2 else acc.2 ++ [coord])
    | .str s =>
      match splitOnC ':' s with
      | [g, a, v] =>
        (addPomDep acc.1 (g, a, v), if s ∈ acc.2 then acc.2 else acc.2 ++ [s])
      | _ => acc) ([], [])
  let step2 := detected.foldl (fun (acc : List MavenDep × List PStr) dd =>
    let coord := tripleStr dd
    (addPomDep acc.1 dd, if coord ∈ acc.2 then acc.2 else acc.2 ++ [coord])) step1
  let hasSpring := step2.1.any (fun d => startsWithL d.1 (ps "org.springframework"))
  if hasSpring then
    let starters0 : List MavenDep :=
      [(ps "org.springframework.boot", ps "spring-boot-starter-web", ps "3.1.5"),
       (ps "org.springframework.boot", ps "spring-boot-starter-data-jpa", ps "3.1.5"),
       (ps "org.springframework.boot", ps "spring-boot-starter-validation", ps "3.1.5")]
    let starters1 :=
      if containsSub code (ps "Security") || containsSub (pyLower code) (ps "security") then
        starters0 ++ [(ps "org.springframework.boot", ps "spring-boot-starter-security", ps "3.1.5")]
      else starters0
    let starters2 :=
      if containsSub (pyLower code) (ps "jwt") || containsSub code (ps "Jwt") ||
         containsSub (pyLower code) (ps "jsonwebtoken") then
        starters1 ++
          [(ps "io.jsonwebtoken", ps "jjwt-api", ps "0.11.5"),
           (ps "io.jsonwebtoken", ps "jjwt-impl", ps "0.11.5"),
           (ps "io.jsonwebtoken", ps "jjwt-jackson", ps "0.11.5")]
      else starters1
    starters2.foldl (fun (acc : List MavenDep × List PStr) st =>
      if st ∈ acc.1 then acc else (acc.1 ++ [st], acc.2 ++ [tripleStr st])) step2
  else step2

/-- The outcome of running `mvn clean compile` in the temp project, as the
Python code observes it. -/
inductive CompileOutcome where
  | completed (returncode : Int) (stdout stderr : PStr)
  | timedOut (msg : PStr)
  | toolMissing (msg : PStr)
  | raised (msg : PStr)
deriving DecidableEq

/-- Did the subprocess run to completion (no exception)? -/
def CompileOutcome.isCompleted : CompileOutcome → Bool
  | .completed _ _ _ => true
  | _ => false

/-- The build-tool environment observed by a JVM build: resolved `mvn` path, resolved
wrapper path, and the compile-step outcome. -/
structure MavenEnv where
  mvnPath : Option PStr
  mvnwPath : Option PStr
  compile : CompileOutcome

/-- `BuildResult` (src/models/schemas.py), the fields the JVM builds set. -/
structure BuildResultM where
  status : PStr
  dependencies : List PStr := []
  buildInstructions : PStr := []
  errors : List PStr := []
  suggestedFixes : List PStr := []
deriving DecidableEq

/-- A JVM build outcome together with the temp-directory lifecycle: whether
the unique temp directory was created and whether it was removed before
returning. -/
structure BuildJavaOut where
  result : BuildResultM
  tempCreated : Bool
  tempRemoved : Bool
deriving DecidableEq

/-- `BuildAgent._build_java(code, dependencies)`.  The temp directory is
created before class extraction; `shutil.rmtree` appears only on the
successful-compile path of the source. -/
def buildJava (env : MavenEnv) (code : PStr) (deps : List JDep) : BuildJavaOut :=
  match firstSome publicClassAt code with
  | none =>
    { result :=
        { status := ps "error"
          errors :=
            [ps "Could not find public class declaration",
             ps "The generated code may be incomplete or invalid Java"]
          suggestedFixes :=
            [ps "Ensure code has \x27public class ClassName\x27",
             ps "Check that code is valid Java (not pseudocode or incomplete)",
             ps "For Spring Boot single-file: Simplify the request or use multi-file generation"] }
      tempCreated := true, tempRemoved := false }
  | some (className, _) =>
    if env.mvnPath = none ∧ env.mvnwPath = none then
      { result :=
          { status := ps "error"
            errors := [ps "Maven (mvn) not found in system PATH or common installation locations"]
            suggestedFixes :=
              [ps "Maven is installed but not in PATH. Please:",
               ps "1. Add Maven bin directory to system PATH: C:\\Program Files\\apache-maven-3.9.11\\bin",
               ps "2. Then restart VS Code to refresh the environment",
               ps "Or add a Maven wrapper (mvnw) to the project"] }
        tempCreated := true, tempRemoved := false }
    else
      match env.compile with
      | .completed rc out err =>
        if rc ≠ 0 then
          let combined := err ++ ps "\n" ++ out
          let parsed := parseJavaErrors combined
          let mavenLines :=
            if containsSub out (ps "[ERROR]") then
              ((splitNl out).filter (fun l => containsSub l (ps "[ERROR]"))).take 5
            else []
          { result :=
              { status := ps "error"
                dependencies := (mergeJavaDeps code deps).2
                errors := parsed.1 ++ mavenLines
                suggestedFixes := parsed.2
                buildInstructions := ps "Fix compilation errors" }
            tempCreated := true, tempRemoved := false }
        else
          { result :=
              { status := ps "success"
                dependencies := (mergeJavaDeps code deps).2
                buildInstructions :=
                  ps "Java class " ++ className ++ ps " compiled successfully" }
            tempCreated := true, tempRemoved := true }
      | .timedOut _ =>
        { result :=
            { status := ps "error"
              errors := [ps "Maven build timed out"]
              suggestedFixes := [ps "Simplify dependencies or increase timeout"] }
          tempCreated := true, tempRemoved := false }
      | .toolMissing _ =>
        { result :=
            { status := ps "error"
              errors := [ps "Maven (mvn) not found in system PATH"]
              suggestedFixes :=
                [ps "Install Maven: sudo apt install maven (Linux) or brew install maven (macOS)"] }
          tempCreated := true, tempRemoved := false }
      | .raised m =>
        { result :=
            { status := ps "error"
              errors := [m]
              suggestedFixes := [ps "Review Java code structure and syntax"] }
          tempCreated := true, tempRemoved := false }

/-- `l[-n:]` (Python negative slice). -/
def takeLast (n : Nat) (l : PStr) : PStr := l.drop (l.length - n)

/-- The dependency merge of `BuildAgent._build_java_project` (coordinate-set
based, over all Java files, with project-level Spring-starter enrichment). -/
def mergeProjectDeps (javaFiles : List (PStr × PStr)) (deps : List JDep) :
    List MavenDep :=
  let step1 := deps.foldl (fun acc d =>
    match d with
    | .record g a v => addPomDep acc (g, a, v)
    | .str s =>
      match splitOnC ':' s with
      | [g, a, v] => addPomDep acc (g, a, v)
      | _ => acc) []
  let step2 := javaFiles.foldl (fun acc f =>
    (detectJavaDependencies f.2).foldl addPomDep acc) step1
  let hasSpring := step2.any (fun d => startsWithL d.1 (ps "org.springframework"))
  let hasTests := javaFiles.any (fun f => containsSub f.1 (ps "Test"))
  let hasSecurity := javaFiles.any (fun f =>
    containsSub (pyLower f.1) (ps "security") || containsSub f.2 (ps "Security"))
  let hasJwt := javaFiles.any (fun f =>
    containsSub (pyLower f.1) (ps "jwt") || containsSub f.2 (ps "Jwt") ||
    containsSub (pyLower f.2) (ps "jsonwebtoken"))
  if hasSpring then
    let starters0 : List MavenDep :=
      [(ps "org.springframework.boot", ps "spring-boot-starter-web", ps "3.1.5"),
       (ps "org.springframework.boot", ps "spring-boot-starter-data-jpa", ps "3.1.5"),
       (ps "org.springframework.boot", ps "spring-boot-starter-validation", ps "3.1.5")]
    let starters1 :=
      if hasSecurity then
        starters0 ++ [(ps "org.springframework.boot", ps "spring-boot-starter-security", ps "3.1.5")]
      else starters0
    let starters2 :=
      if hasJwt then
        starters1 ++
          [(ps "io.jsonwebtoken", ps "jjwt-api", ps "0.11.5"),
           (ps "io.jsonwebtoken", ps "jjwt-impl", ps "0.11.5"),
           (ps "io.jsonwebtoken", ps "jjwt-jackson", ps "0.11.5")]
      else starters1
    let starters3 :=
      if hasTests then
        starters2 ++ [(ps "org.springframework.boot", ps "spring-boot-starter-test", ps "3.1.5")]
      else starters2
    starters3.foldl addPomDep step2
  else step2

/-- `BuildAgent._build_java_project(files, dependencies, root_dir)`: files are
`(filename, code)` pairs.  `shutil.rmtree` appears on the success path and on
the nonzero-compile-exit path, but not on the Maven-missing, no-Java-files,
timeout, or exception paths. -/
def buildJavaProject (env : MavenEnv) (files : List (PStr × PStr)) (deps : List JDep) :
    BuildJavaOut :=
  if files.filter (fun f => endsWithL f.1 (ps ".java")) = [] then
    { result :=
        { status := ps "error"
          errors := [ps "No Java files found in project"]
          suggestedFixes := [ps "Add Java source files"] }
      tempCreated := true, tempRemoved := false }
  else
    match env.mvnPath with
    | none =>
      { result :=
          { status := ps "error"
            errors := [ps "Maven not found in system PATH"]
            suggestedFixes :=
              [ps "Install Maven and add to PATH", ps "Or use Maven wrapper (mvnw)"] }
        tempCreated := true, tempRemoved := false }
    | some _ =>
      match env.compile with
      | .completed rc out err =>
        if rc ≠ 0 then
          let combined := err ++ ps "\n" ++ out
          let parsed := parseJavaErrors combined
          let mavenLines :=
            if containsSub out (ps "[ERROR]") then
              (((splitNl out).filter (fun l => containsSub l (ps "[ERROR]"))).map pyStrip).take 10
            else []
          let errors1 := parsed.1 ++ mavenLines
          let errorsF :=
            if errors1 = [] then
              [ps "Build failed - see logs for details",
               if out = [] then ps "No output" else takeLast 1000 out]
            else errors1
          { result :=
              { status := ps "error"
                dependencies := (mergeProjectDeps
                  (files.filter (fun f => endsWithL f.1 (ps ".java"))) deps).map tripleStr
                errors := errorsF
                suggestedFixes := parsed.2
                buildInstructions := ps "Fix compilation errors" }
            tempCreated := true, tempRemoved := true }
        else
          { result :=
              { status := ps "success"
                dependencies := (mergeProjectDeps
                  (files.filter (fun f => endsWithL f.1 (ps ".java"))) deps).map tripleStr
                buildInstructions := ps "Project compiled successfully" }
            tempCreated := true, tempRemoved := true }
      | .timedOut m =>
        { result :=
            { status := ps "error"
              errors := [m]
              suggestedFixes := [ps "Review project structure and dependencies"] }
          tempCreated := true, tempRemoved := false }
      | .toolMissing m =>
        { result :=
            { status := ps "error"
              errors := [m]
              suggestedFixes := [ps "Review project structure and dependencies"] }
          tempCreated := true, tempRemoved := false }
      | .raised m =>
        { result :=
            { status := ps "error"
              errors := [m]
              suggestedFixes := [ps "Review project structure and dependencies"] }
          tempCreated := true, tempRemoved := false }

/-! ## Testing Agent fallback heuristic (src/agents/testing_agent.py) -/

/-- `TestingAgent._basic_validation` status computation: `pass` iff
`len(stdout) > 0` and not (`len(stderr) > 0 and "error" in stderr.lower()`). -/
def basicValidationStatus (stdout stderr : PStr) : PStr :=
  let hasOutput : Bool := !stdout.isEmpty
  let hasErrors : Bool := !stderr.isEmpty && containsSub (pyLower stderr) (ps "error")
  if hasOutput && !hasErrors then ps "pass" else ps "fail"

/-! ## Orchestrator (src/agents/orchestrator.py) -/

/-- Python truthiness of an optional string (`None` and `""` are falsy). -/
def pyFalsyO (o : Option PStr) : Bool :=
  match o with
  | none => true
  | some s => s.isEmpty

/-- The dict returned by `CodeGeneratorAgent.generate_code` as the
orchestrator reads it (`.get("success") / "files" / "code" / "filename" /
"dependencies" / "error"`).  File entries are `(filename, code)` pairs. -/
structure GenResultM where
  success : Bool
  files : List (PStr × PStr) := []
  code : Option PStr := none
  filename : Option PStr := none
  dependencies : List PStr := []
  error : Option PStr := none

/-- `TestResult` as the orchestrator consumes it. -/
structure TestResultM where
  status : PStr
  issuesFound : List PStr := []
  executionLogs : PStr := []
deriving DecidableEq

/-- The environment of one `generate_code` run: the results each sub-agent
returns at iteration `i` (the generator additionally sees the error context
it is called with). -/
structure SFOracle where
  gen : Nat → PStr → GenResultM
  build : Nat → BuildResultM
  test : Nat → TestResultM

/-- `IterationLog` (src/models/schemas.py), statuses as their string values. -/
structure IterationLogM where
  iterationNumber : Nat
  codeGenStatus : PStr := ps "pending"
  buildStatus : PStr := ps "pending"
  testStatus : PStr := ps "pending"
  generatedCode : Option PStr := none
  buildResult : Option BuildResultM := none
  testResult : Option TestResultM := none
  errorType : Option ErrorTypeM := none
  errorMessage : Option PStr := none

/-- `GenerationSession`, restricted to the fields the loop mutates. -/
structure SessionM where
  maxIterations : Nat
  currentIteration : Nat := 0
  iterations : List IterationLogM := []
  missingCredentials : List PStr := []
  success : Bool := false
  status : PStr := ps "pending"
  finalCode : Option (PStr × PStr) := none

/-- The code normalization of `generate_code` steps 103-119: take
`code_result.get("code")`, fall back to the first file's body, fail on a
falsy result. -/
def genCodeOf (r : GenResultM) : Option PStr :=
  if !r.success then none
  else
    let useFirst := pyFalsyO r.code && !r.files.isEmpty
    let generated1 := if useFirst then some (r.files.headD ([], [])).2 else r.code
    if pyFalsyO generated1 then none else generated1

/-- One-iteration outcome in the single-file loop: the appended log, the
outgoing error context, whether the loop continues, the missing-credential
labels to store (build-failure branch only), and the final artifact. -/
structure SFStep where
  log : IterationLogM
  ctxOut : PStr
  continueLoop : Bool
  setMissing : List PStr
  finalCode : Option (PStr × PStr)

/-- The body of `OrchestratorAgent.generate_code`'s iteration loop
(src/agents/orchestrator.py lines 82-235), for iteration `i` with incoming
error context `ctx`. -/
def sfBody (o : SFOracle) (lang : PStr) (maxIter i : Nat) (ctx : PStr) : SFStep :=
  let r := o.gen i ctx
  if !r.success then
    { log := { iterationNumber := i, codeGenStatus := ps "failed", errorMessage := r.error }
      ctxOut := ctx, continueLoop := true, setMissing := [], finalCode := none }
  else
    let useFirst := pyFalsyO r.code && !r.files.isEmpty
    let generated1 := if useFirst then some (r.files.headD ([], [])).2 else r.code
    let filename1 :=
      if useFirst then
        (if pyFalsyO r.filename then some (r.files.headD ([], [])).1 else r.filename)
      else r.filename
    if pyFalsyO generated1 then
      { log := { iterationNumber := i, codeGenStatus := ps "failed",
                 errorType := some .logic,
                 errorMessage := some (ps "Code generator did not return code.") }
        ctxOut := ctx, continueLoop := true, setMissing := [], finalCode := none }
    else
      let code := generated1.getD []
      let filenameF :=
        if pyFalsyO filename1 then
          (if lang = ps "python" then ps "generated_code.py" else ps "generated_code.java")
        else filename1.getD []
      let br := o.build i
      if br.status ≠ ps "success" then
        let einfo := parseError (joinNl br.errors) lang (some code)
        { log := { iterationNumber := i, codeGenStatus := ps "success",
                   generatedCode := some code, buildStatus := ps "failed",
                   buildResult := some br, errorType := some einfo.errorType,
                   errorMessage := some einfo.rootCause }
          ctxOut := formatErrorContext einfo i maxIter
          continueLoop := true, setMissing := einfo.missingCreds, finalCode := none }
      else
        let te := o.test i
        if te.status ≠ ps "pass" then
          let einfo := parseError (joinNl (te.issuesFound ++ [te.executionLogs])) lang (some code)
          { log := { iterationNumber := i, codeGenStatus := ps "success",
                     generatedCode := some code, buildStatus := ps "success",
                     buildResult := some br, testStatus := ps "failed",
                     testResult := some te, errorType := some einfo.errorType,
                     errorMessage := some einfo.rootCause }
            ctxOut := formatErrorContext einfo i maxIter
            continueLoop := true, setMissing := [], finalCode := none }
        else
          { log := { iterationNumber := i, codeGenStatus := ps "success",
                     generatedCode := some code, buildStatus := ps "success",
                     buildResult := some br, testStatus := ps "success",
                     testResult := some te }
            ctxOut := ctx, continueLoop := false, setMissing := [],
            finalCode := some (filenameF, code) }

/-- The iteration loop of `generate_code`: `n` iterations remain, the next
one is numbered `i`.  The trace records, per iteration, the error context
passed to the Code Generator. -/
def sfLoop (o : SFOracle) (lang : PStr) (maxIter : Nat) :
    Nat → Nat → PStr → SessionM → List (Nat × PStr) → SessionM × List (Nat × PStr)
  | 0, _, _, st, tr => (st, tr)
  | n + 1, i, ctx, st, tr =>
    let st1 := { st with currentIteration := i }
    let tr1 := tr ++ [(i, ctx)]
    let b := sfBody o lang maxIter i ctx
    let st2 := { st1 with
      iterations := st1.iterations ++ [b.log],
      missingCredentials :=
        if b.setMissing ≠ [] then b.setMissing else st1.missingCredentials }
    if b.continueLoop then sfLoop o lang maxIter n (i + 1) b.ctxOut st2 tr1
    else
      ({ st2 with success := true, status := ps "success", finalCode := b.finalCode }, tr1)

/-- `OrchestratorAgent.generate_code(requirements, language, max_iterations, …)`:
fresh session, the iteration loop starting from an empty error context, and
the post-loop status finalization.  Returns the session and the per-iteration
error-context trace. -/
def generateCodeM (o : SFOracle) (lang : PStr) (maxIter : Nat) :
    SessionM × List (Nat × PStr) :=
  let r := sfLoop o lang maxIter maxIter 1 (ps "") { maxIterations := maxIter } []
  (if !r.1.success then { r.1 with status := ps "failed" } else r.1, r.2)

/-- The per-iteration outgoing context of the single-file loop, expressed
over the oracle alone (for stating the context-propagation property). -/
def nextCtxSF (o : SFOracle) (lang : PStr) (maxIter i : Nat) (ctx : PStr) : PStr :=
  match genCodeOf (o.gen i ctx) with
  | none => ctx
  | some code =>
    if (o.build i).status ≠ ps "success" then
      formatErrorContext (parseError (joinNl (o.build i).errors) lang (some code)) i maxIter
    else if (o.test i).status ≠ ps "pass" then
      formatErrorContext
        (parseError (joinNl ((o.test i).issuesFound ++ [(o.test i).executionLogs])) lang
          (some code)) i maxIter
    else ctx

/-- Whether the single-file loop continues past iteration `i` (some stage
failed), over the oracle alone. -/
def continuesSF (o : SFOracle) (i : Nat) (ctx : PStr) : Bool :=
  match genCodeOf (o.gen i ctx) with
  | none => true
  | some _ => ((o.build i).status != ps "success") || ((o.test i).status != ps "pass")

/-- The environment of one `generate_project` run. -/
structure ProjOracle where
  scaffoldOk : Bool
  gen : Nat → Option PStr → List (PStr × PStr) × List PStr
  validate : Nat → Bool × List PStr
  build : Nat → BuildResultM
  test : Nat → TestResultM

/-- `ProjectSession`, restricted to the fields the loop mutates.  Note the
schema default `current_iteration = 0`; `generate_project` never assigns it. -/
structure ProjSessionM where
  maxIterations : Nat
  currentIteration : Nat := 0
  iterations : List IterationLogM := []
  success : Bool := false
  status : PStr := ps "pending"
  files : List (PStr × PStr) := []
  allDependencies : List PStr := []

/-- The iteration loop of `OrchestratorAgent.generate_project`
(src/agents/orchestrator.py lines 455-605).  The error context passed to
`generate_project_code` is `""` at iteration 1 and, for `i > 1`, the
`error_message` of the *freshly created* iteration log — that is, `None`. -/
def projLoop (o : ProjOracle) (maxIter : Nat) :
    Nat → Nat → ProjSessionM → List (Nat × Option PStr) →
      ProjSessionM × List (Nat × Option PStr)
  | 0, _, st, tr => (st, tr)
  | n + 1, i, st, tr =>
    let log0 : IterationLogM := { iterationNumber := i }
    let ctx : Option PStr := if 1 < i then log0.errorMessage else some (ps "")
    let tr1 := tr ++ [(i, ctx)]
    let g := o.gen i ctx
    if g.1 = [] then
      projLoop o maxIter n (i + 1)
        { st with iterations := st.iterations ++ [{ log0 with codeGenStatus := ps "failed" }] }
        tr1
    else
      let st1 := { st with files := g.1, allDependencies := g.2 }
      let v := o.validate i
      if !v.1 then
        projLoop o maxIter n (i + 1)
          { st1 with iterations := st1.iterations ++
              [{ log0 with
                  codeGenStatus := ps "success"
                  buildStatus := ps "failed"
                  errorType := some ErrorTypeM.logic
                  errorMessage := some (joinNl v.2) }] }
          tr1
      else
        let br := o.build i
        if br.status ≠ ps "success" then
          projLoop o maxIter n (i + 1)
            { st1 with iterations := st1.iterations ++
                [{ log0 with
                    codeGenStatus := ps "success"
                    buildStatus := ps "failed"
                    errorMessage := some (joinNl br.errors) }] }
            tr1
        else
          let te := o.test i
          if te.status ≠ ps "pass" then
            projLoop o maxIter n (i + 1)
              { st1 with iterations := st1.iterations ++
                  [{ log0 with
                      codeGenStatus := ps "success"
                      buildStatus := ps "success"
                      testStatus := ps "failed"
                      testResult := some te }] }
              tr1
          else
            ({ st1 with
                success := true
                status := ps "success"
                iterations := st1.iterations ++
                  [{ log0 with
                      codeGenStatus := ps "success"
                      buildStatus := ps "success"
                      testStatus := ps "success" }] }, tr1)

/-- `OrchestratorAgent.generate_project(...)`: scaffold, iteration loop, and
finalization.  Returns the session and the per-iteration error-context trace. -/
def generateProjectM (o : ProjOracle) (maxIter : Nat) :
    ProjSessionM × List (Nat × Option PStr) :=
  let st0 : ProjSessionM := { maxIterations := maxIter }
  if !o.scaffoldOk then ({ st0 with status := ps "failed" }, [])
  else
    let r := projLoop o maxIter maxIter 1 st0 []
    (if !r.1.success then { r.1 with status := ps "failed" } else r.1, r.2)

/-- The expected single-file error-context trace starting at iteration `i0`
with incoming context `c0`, for `m` executed iterations (specification-side
companion of `sfLoop`'s trace). -/
def traceSpec (o : SFOracle) (lang : PStr) (maxIter : Nat) :
    Nat → PStr → Nat → List (Nat × PStr)
  | _, _, 0 => []
  | i0, c0, m + 1 =>
    (i0, c0) :: traceSpec o lang maxIter (i0 + 1) (sfBody o lang maxIter i0 c0).ctxOut m

/-- The incoming error context of the `d`-th iteration after `(i0, c0)`. -/
def ctxFromSF (o : SFOracle) (lang : PStr) (maxIter : Nat) :
    Nat → PStr → Nat → PStr
  | _, c0, 0 => c0
  | i0, c0, d + 1 =>
    ctxFromSF o lang maxIter (i0 + 1) (sfBody o lang maxIter i0 c0).ctxOut d

/-- The expected project error-context trace starting at iteration `i0` for
`m` executed iterations: `""` at iteration 1, `None` afterwards. -/
def traceSpecP : Nat → Nat → List (Nat × Option PStr)
  | _, 0 => []
  | i0, m + 1 =>
    (i0, if 1 < i0 then none else some (ps "")) :: traceSpecP (i0 + 1) m

/-- A concrete project oracle whose generator returns no files
(for the C1 counterexample). -/
def c1Proj : ProjOracle :=
  { scaffoldOk := true
    gen := fun _ _ => ([], [])
    validate := fun _ => (true, [])
    build := fun _ => { status := ps "success" }
    test := fun _ => { status := ps "pass" } }

/-- A concrete single-file oracle whose build always fails with `boom`
(for the C3 witness). -/
def c3O : SFOracle :=
  { gen := fun _ _ => { success := true, files := [(ps "a.py", ps "x=1")] }
    build := fun _ => { status := ps "error", errors := [ps "boom"] }
    test := fun _ => { status := ps "pass" } }

/-- The retry context the C3-witness oracle produces after iteration 1. -/
def c3Ctx : PStr :=
  formatErrorContext (parseError (ps "boom") (ps "python") (some (ps "x=1"))) 1 2

/-- A concrete project oracle for the C3 witness (generation yields no files). -/
def c3ProjO : ProjOracle :=
  { scaffoldOk := true
    gen := fun _ _ => ([], [])
    validate := fun _ => (true, [])
    build := fun _ => { status := ps "success" }
    test := fun _ => { status := ps "pass" } }

/-- A concrete project oracle whose validation fails with a recorded error
(for the C3 counterexample). -/
def c3CexProj : ProjOracle :=
  { scaffoldOk := true
    gen := fun _ _ => ([(ps "main.py", ps "x=1")], [])
    validate := fun _ => (false, [ps "bad import"])
    build := fun _ => { status := ps "success" }
    test := fun _ => { status := ps "pass" } }

/-! ## Code executor (src/tools/code_executor.py) -/

/-- Outcome of a `subprocess.run` the executor would perform. -/
inductive RunOutcome where
  | completed (returncode : Int) (stdout stderr : PStr)
  | timedOut
  | raised (msg : PStr)

/-- The host environment `execute_python_code` observes. -/
structure PyExecEnv where
  enableCodeExecution : Bool
  osName : PStr
  executionTimeout : Nat
  run : PStr → RunOutcome

/-- The executor's result dict, plus a ghost flag recording whether the
subprocess was ever launched on the supplied code. -/
structure ExecResultM where
  success : Bool
  stdout : PStr := []
  stderr : PStr := []
  error : Option PStr := none
  returncode : Option Int := none
  codeRan : Bool
deriving DecidableEq

/-- Whether code_executor.py binds the name `set_limits` at module level:
its definition (lines 66-70) is commented out, so it does not. -/
def moduleDefinesSetLimits : Bool := false

/-- `execute_python_code(code, runtime_credentials)`
(src/tools/code_executor.py lines 33-109).  The conditional
`preexec_fn = set_limits if os.name != "nt" else None` evaluates the name
`set_limits` only on the non-Windows branch; with the definition commented
out this raises `NameError`, caught by the generic `except Exception`
handler, which returns a failure dict before `subprocess.run` is reached. -/
def executePythonCode (env : PyExecEnv) (code : PStr) (creds : List (PStr × PStr)) :
    ExecResultM :=
  if !env.enableCodeExecution then
    { success := false, error := some (ps "Code execution is disabled in settings")
      codeRan := false }
  else
    let fullCode :=
      if creds ≠ [] then
        joinNl (creds.map (fun kv => kv.1 ++ ps " = \x27" ++ kv.2 ++ ps "\x27")) ++
          ps "\n\n" ++ code
      else code
    if env.osName ≠ ps "nt" && !moduleDefinesSetLimits then
      { success := false, error := some (ps "name \x27set_limits\x27 is not defined")
        codeRan := false }
    else
      match env.run fullCode with
      | .completed rc out err =>
        { success := rc == 0, stdout := out, stderr := err, returncode := some rc
          codeRan := true }
      | .timedOut =>
        { success := false
          error := some (ps "Execution timed out after " ++ natStr env.executionTimeout ++
            ps " seconds")
          codeRan := true }
      | .raised m => { success := false, error := some m, codeRan := true }

/-- A concrete environment whose compile step fails (for the C6 counterexample). -/
def c6Env : MavenEnv :=
  { mvnPath := some (ps "/usr/bin/mvn")
    mvnwPath := none
    compile := CompileOutcome.completed 1 (ps "[ERROR] compile failure") (ps "") }

/-- Six `[ERROR]`-bearing stdout lines (for the C9 counterexample). -/
def c9Out : PStr :=
  ps "[ERROR] e1\n[ERROR] e2\n[ERROR] e3\n[ERROR] e4\n[ERROR] e5\n[ERROR] e6"

/-- A concrete environment whose compile step fails with six `[ERROR]` lines. -/
def c9Env : MavenEnv :=
  { mvnPath := some (ps "/usr/bin/mvn")
    mvnwPath := none
    compile := CompileOutcome.completed 1 c9Out [] }

/-- A concrete environment with two `[ERROR]` lines (for the C9 witness). -/
def c9WEnv : MavenEnv :=
  { mvnPath := some (ps "/usr/bin/mvn")
    mvnwPath := none
    compile := CompileOutcome.completed 1 (ps "[ERROR] a\n[ERROR] b") [] }

/-- Concrete POSIX environment for the C10 witness. -/
def c10Env : PyExecEnv :=
  { enableCodeExecution := true
    osName := ps "posix"
    executionTimeout := 60
    run := fun _ => RunOutcome.completed 0 (ps "hi") [] }

end AgentStudio

namespace AgentStudio

/-! ## Helper lemmas -/

theorem startsWithL_nil {n : PStr} (h : n ≠ []) : startsWithL [] n = false := by
  cases n with
  | nil => exact absurd rfl h
  | cons c t => rfl

theorem containsSub_nil {n : PStr} (h : n ≠ []) : containsSub [] n = false := by
  simpa [containsSub] using startsWithL_nil h

theorem startsWithL_mem {h n : PStr} (hs : startsWithL h n = true) : ∀ c ∈ n, c ∈ h := by
  induction h generalizing n with
  | nil =>
    cases n with
    | nil => intro c hc; cases hc
    | cons a t => cases hs
  | cons a t ih =>
    cases n with
    | nil => intro c hc; cases hc
    | cons b u =>
      simp only [startsWithL, Bool.and_eq_true] at hs
      intro c hc
      rcases List.mem_cons.mp hc with rfl | hcu
      · exact List.mem_cons.mpr (Or.inl (of_decide_eq_true hs.1).symm)
      · exact List.mem_cons_of_mem _ (ih hs.2 c hcu)

theorem containsSub_mem {h n : PStr} (hc : containsSub h n = true) : ∀ c ∈ n, c ∈ h := by
  induction h with
  | nil =>
    intro c hcn
    cases n with
    | nil => cases hcn
    | cons b u => rw [containsSub_nil (by simp)] at hc; cases hc
  | cons a t ih =>
    simp only [containsSub, Bool.or_eq_true] at hc
    intro c hcn
    rcases hc with hs | hsub
    · exact startsWithL_mem hs c hcn
    · exact List.mem_cons_of_mem _ (ih hsub c hcn)

/-- C8 (confirmed): the Testing Agent fallback heuristic
(`TestingAgent._basic_validation`) returns `pass` iff stdout is non-empty and
stderr does not contain the substring `error` case-insensitively. -/
theorem C8_basic_validation_heuristic (stdout stderr : PStr) :
    basicValidationStatus stdout stderr = ps "pass" ↔
      stdout ≠ [] ∧ containsSub (pyLower stderr) (ps "error") = false := by
  unfold basicValidationStatus
  cases stdout with
  | nil => simp [ps]
  | cons c t =>
    cases stderr with
    | nil =>
      simp only [pyLower, List.map_nil]
      simp [ps]
      decide
    | cons d u =>
      by_cases h : containsSub (pyLower (d :: u)) (ps "error") = true
      · simp [h, ps]
      · simp only [Bool.not_eq_true] at h
        simp [h, ps]

/-- C2 (amended): the Error Parser assigns `MISSING_CREDENTIALS` exactly when
the auth-keyword pattern matches the error message; this direction makes the
detected-label list non-empty, but labels detected only from the supplied
code (placeholder scanning) do not force the kind to `MISSING_CREDENTIALS`. -/
theorem C2_missing_credentials_iff_amended (msg lang : PStr) (code : Option PStr) :
    (determineErrorType msg lang = ErrorTypeM.missingCredentials ↔ authMatch msg = true) ∧
    (determineErrorType msg lang = ErrorTypeM.missingCredentials →
      detectMissingCredentials msg code ≠ []) := by
  by_cases h : authMatch msg = true
  · refine ⟨⟨fun _ => h, fun _ => ?_⟩, fun _ => ?_⟩
    · unfold determineErrorType; rw [if_pos h]
    · unfold detectMissingCredentials
      rw [if_pos h]
      cases code with
      | none => simp
      | some c =>
        by_cases hc : c = []
        · simp [hc]
        · simp [hc]
  · have hne : determineErrorType msg lang ≠ ErrorTypeM.missingCredentials := by
      unfold determineErrorType
      rw [if_neg h]
      repeat' split
      all_goals decide
    exact ⟨⟨fun hEq => absurd hEq hne, fun ha => absurd ha h⟩, fun hEq => absurd hEq hne⟩

/-- C2 counterexample: a runtime error message with no auth keyword, paired
with code containing `TODO`, yields kind `LOGIC` while the detected
missing-credential label list is non-empty — refuting the stated iff. -/
theorem C2_counterexample :
    determineErrorType (ps "division by zero") (ps "python") ≠
      ErrorTypeM.missingCredentials ∧
    detectMissingCredentials (ps "division by zero") (some (ps "# TODO: implement")) ≠
      [] := by
  decide

/-- C7 (amended): `load_session`'s migration rewrites every *non-empty*
unknown `error_type` value to `logic` before validation, and a record whose
kinds are all known passes migration unchanged and validates; the empty
string, being falsy, escapes the rewrite (see the counterexample). -/
theorem C7_migration_amended :
    (∀ s : PStr, s ≠ [] → s ∉ allowedErrorTypes →
      normalizeErrorTypeField (some s) = some (ps "logic")) ∧
    (∀ l : List (Option PStr), (∀ et ∈ l, validErrorTypeField et = true) →
      migrateIterations l = l ∧ loadSessionValidates l = true) := by
  constructor
  · intro s hne hnm
    have hdef : normalizeErrorTypeField (some s) =
        if s ≠ [] ∧ s ∉ allowedErrorTypes then some (ps "logic") else some s := rfl
    rw [hdef, if_pos ⟨hne, hnm⟩]
  · intro l hvalid
    have hid : ∀ et ∈ l, normalizeErrorTypeField et = et := by
      intro et hmem
      have hv := hvalid et hmem
      cases et with
      | none => rfl
      | some s =>
        have hv2 : decide (s ∈ allowedErrorTypes) = true := hv
        have hdef : normalizeErrorTypeField (some s) =
            if s ≠ [] ∧ s ∉ allowedErrorTypes then some (ps "logic") else some s := rfl
        rw [hdef, if_neg]
        intro hcon
        exact hcon.2 (of_decide_eq_true hv2)
    have hmig : migrateIterations l = l := by
      unfold migrateIterations
      rw [List.map_congr_left hid]
      simp
    refine ⟨hmig, ?_⟩
    unfold loadSessionValidates
    rw [hmig]
    exact List.all_eq_true.mpr hvalid

/-- C7 witness: a concrete unknown kind is rewritten to `logic`, and a
record with only known kinds loads unchanged. -/
theorem C7_witness :
    normalizeErrorTypeField (some (ps "weird")) = some (ps "logic") ∧
    (migrateIterations [some (ps "build"), none] = [some (ps "build"), none] ∧
      loadSessionValidates [some (ps "build"), none] = true) :=
  ⟨C7_migration_amended.1 (ps "weird") (by decide) (by decide),
   C7_migration_amended.2 [some (ps "build"), none] (by decide)⟩

/-- C7 counterexample: the empty-string `error_type` is not one of the five
known kinds, yet the migration leaves it unchanged (the `if et` guard skips
falsy values) and schema validation then fails — the record does not load
with the kind rewritten to `LOGIC`. -/
theorem C7_counterexample :
    (ps "" ∉ allowedErrorTypes) ∧
    normalizeErrorTypeField (some (ps "")) = some (ps "") ∧
    normalizeErrorTypeField (some (ps "")) ≠ some (ps "logic") ∧
    loadSessionValidates [some (ps "")] = false := by
  decide

/-- C10 (confirmed): on any non-Windows host, `execute_python_code` fails
before launching the subprocess: the `preexec_fn` conditional evaluates the
name `set_limits`, whose definition is commented out, raising a `NameError`
caught by the generic handler. -/
theorem C10_execute_python_nameerror (env : PyExecEnv) (code : PStr)
    (creds : List (PStr × PStr)) (h : env.osName ≠ ps "nt") :
    (executePythonCode env code creds).success = false ∧
    (executePythonCode env code creds).codeRan = false := by
  unfold executePythonCode
  cases henb : env.enableCodeExecution with
  | false => simp
  | true =>
    have hcond : (decide (env.osName ≠ ps "nt") && !moduleDefinesSetLimits) = true := by
      rw [decide_eq_true h]
      rfl
    simp only [henb, Bool.not_true, if_false, hcond, if_true]
    constructor <;> rfl

/-- C10 witness: evaluation on a concrete POSIX environment. -/
theorem C10_witness :
    (ps "posix" ≠ ps "nt") ∧
    (executePythonCode c10Env (ps "print(1)") []).success = false ∧
    (executePythonCode c10Env (ps "print(1)") []).codeRan = false :=
  ⟨by decide,
   (C10_execute_python_nameerror c10Env (ps "print(1)") [] (by decide)).1,
   (C10_execute_python_nameerror c10Env (ps "print(1)") [] (by decide)).2⟩

/-! ## C5 lemmas: the dependency extractor output -/

theorem mem_takeWhile_pred {p : Char → Bool} :
    ∀ {l : PStr} {c : Char}, c ∈ l.takeWhile p → p c = true := by
  intro l
  induction l with
  | nil => intro c hc; cases hc
  | cons a t ih =>
    intro c hc
    rw [List.takeWhile_cons] at hc
    by_cases ha : p a = true
    · rw [if_pos ha] at hc
      rcases List.mem_cons.mp hc with rfl | h2
      · exact ha
      · exact ih h2
    · rw [if_neg ha] at hc; cases hc

theorem takeWhile_eq_self {p : Char → Bool} :
    ∀ {l : PStr}, (∀ c ∈ l, p c = true) → l.takeWhile p = l := by
  intro l
  induction l with
  | nil => intro _; rfl
  | cons a t ih =>
    intro h
    rw [List.takeWhile_cons, if_pos (h a (List.mem_cons_self a t))]
    rw [ih (fun c hc => h c (List.mem_cons_of_mem a hc))]

theorem dropWhile_eq_self {p : Char → Bool} :
    ∀ {l : PStr}, (∀ c ∈ l, p c = false) → l.dropWhile p = l := by
  intro l
  induction l with
  | nil => intro _; rfl
  | cons a t _ =>
    intro h
    rw [List.dropWhile_cons]
    simp [h a (List.mem_cons_self a t)]

theorem word_not_space {c : Char} (h : isWordChar c = true) : isPySpace c = false := by
  cases hs : isPySpace c
  · rfl
  · exfalso
    unfold isPySpace at hs
    simp only [Bool.or_eq_true, decide_eq_true_eq] at hs
    rcases hs with ((((h1 | h1) | h1) | h1) | h1) | h1 <;> subst h1 <;>
      exact absurd h (by decide)

theorem pyStrip_word {d : PStr} (h : ∀ c ∈ d, isWordChar c = true) : pyStrip d = d := by
  have h1 : d.dropWhile isPySpace = d :=
    dropWhile_eq_self (fun c hc => word_not_space (h c hc))
  have h2 : d.reverse.dropWhile isPySpace = d.reverse :=
    dropWhile_eq_self (fun c hc => word_not_space (h c (List.mem_reverse.mp hc)))
  unfold pyStrip
  rw [h1, h2, List.reverse_reverse]

theorem importKwAt_some {kw s : PStr} {g : PStr} {n : Nat}
    (h : importKwAt kw s = some (g, n)) :
    g ≠ [] ∧ ∀ c ∈ g, isWordChar c = true := by
  simp only [importKwAt] at h
  split at h
  · split at h
    · cases h
    · split at h
      · cases h
      · rename_i hg
        rcases Option.some.injEq _ _ ▸ h with h2
        injection h with h3
        injection h3 with h4 h5
        subst h4
        exact ⟨hg, fun c hc => mem_takeWhile_pred hc⟩
  · cases h

theorem mem_findLineAnchoredAux {α : Type} {f : PStr → Option (α × Nat)} :
    ∀ {fuel : Nat} {b : Bool} {s : PStr} {a : α},
      a ∈ findLineAnchoredAux f fuel b s → ∃ s2 n, f s2 = some (a, n) := by
  intro fuel
  induction fuel with
  | zero => intro b s a ha; cases ha
  | succ m ih =>
    intro b s a ha
    cases s with
    | nil => cases ha
    | cons c t =>
      simp only [findLineAnchoredAux] at ha
      cases b with
      | false =>
        rw [if_neg (by simp)] at ha
        exact ih ha
      | true =>
        rw [if_pos rfl] at ha
        rcases hf : f (c :: t) with _ | ⟨a0, n0⟩
        · rw [hf] at ha
          exact ih ha
        · rw [hf] at ha
          rcases List.mem_cons.mp ha with rfl | h2
          · exact ⟨c :: t, n0, hf⟩
          · exact ih h2

theorem mem_findLineAnchored {α : Type} {f : PStr → Option (α × Nat)} {s : PStr} {a : α}
    (h : a ∈ findLineAnchored f s) : ∃ s2 n, f s2 = some (a, n) :=
  mem_findLineAnchoredAux h

theorem mem_dedupFirstAux {x : PStr} :
    ∀ {l seen : List PStr}, x ∈ dedupFirstAux seen l → x ∈ l := by
  intro l
  induction l with
  | nil => intro seen hx; cases hx
  | cons d t ih =>
    intro seen hx
    simp only [dedupFirstAux] at hx
    split at hx
    · exact List.mem_cons_of_mem _ (ih hx)
    · rcases List.mem_cons.mp hx with rfl | h2
      · exact List.mem_cons_self _ _
      · exact List.mem_cons_of_mem _ (ih h2)

theorem mem_foldl_of_step {α β : Type} (step : List α → β → List α) (g : β → α)
    (hstep : ∀ acc d x, x ∈ step acc d → x ∈ acc ∨ x = g d) :
    ∀ (l : List β) (acc : List α) (x : α),
      x ∈ l.foldl step acc → x ∈ acc ∨ ∃ d ∈ l, x = g d := by
  intro l
  induction l with
  | nil => intro acc x hx; exact Or.inl hx
  | cons d t ih =>
    intro acc x hx
    rcases ih (step acc d) x hx with hacc | ⟨e, he, hxe⟩
    · rcases hstep acc d x hacc with h1 | h2
      · exact Or.inl h1
      · exact Or.inr ⟨d, List.mem_cons_self _ _, h2⟩
    · exact Or.inr ⟨e, List.mem_cons_of_mem _ he, hxe⟩

theorem assocGet_mem {l : List (PStr × PStr)} {k v : PStr}
    (h : assocGet l k = some v) : (k, v) ∈ l := by
  induction l with
  | nil => cases h
  | cons p t ih =>
    simp only [assocGet] at h
    split at h
    · rename_i heq
      injection h with h2
      subst h2
      exact List.mem_cons.mpr (Or.inl (by rw [← heq]))
    · exact List.mem_cons_of_mem _ (ih h)

theorem pipValues_ok : ∀ v ∈ moduleToPip.map Prod.snd,
    v ∉ builtinModules ∧ v ∉ projectModules ∧ v ≠ [] ∧
      startsWithL v (ps "#") = false ∧ v ≠ ps "none" := by decide

theorem builtin_lower : ∀ s ∈ builtinModules, pyLower s = s := by decide

theorem project_lower : ∀ s ∈ projectModules, pyLower s = s := by decide

theorem word_no_verspec {d : PStr} (hw : ∀ c ∈ d, isWordChar c = true) :
    (containsSub d (ps "==") || containsSub d (ps ">=") || containsSub d (ps "<=")) = false := by
  have h1 : containsSub d (ps "==") = false := by
    cases hc : containsSub d (ps "==")
    · rfl
    · exact absurd (hw '=' (containsSub_mem hc '=' (by decide))) (by decide)
  have h2 : containsSub d (ps ">=") = false := by
    cases hc : containsSub d (ps ">=")
    · rfl
    · exact absurd (hw '>' (containsSub_mem hc '>' (by decide))) (by decide)
  have h3 : containsSub d (ps "<=") = false := by
    cases hc : containsSub d (ps "<=")
    · rfl
    · exact absurd (hw '<' (containsSub_mem hc '<' (by decide))) (by decide)
  rw [h1, h2, h3]
  rfl

theorem pipTarget_word {d : PStr} (hw : ∀ c ∈ d, isWordChar c = true) :
    pipTarget d = (assocGet moduleToPip d).getD d := by
  simp only [pipTarget]
  rw [pyStrip_word hw]
  rw [takeWhile_eq_self (fun c hc => by
    have hne : c ≠ '.' := fun he => absurd (he ▸ hw c hc) (by decide)
    simp [hne])]

theorem mem_normFold :
    ∀ (l : List PStr) (acc : List PStr) (x : PStr),
      x ∈ l.foldl (fun acc d =>
        if containsSub d (ps "==") || containsSub d (ps ">=") || containsSub d (ps "<=") then
          acc ++ [d]
        else
          let pipName := pipTarget d
          if pipName ∈ acc then acc else acc ++ [pipName]) acc →
      x ∈ acc ∨ ∃ d ∈ l,
        x = if containsSub d (ps "==") || containsSub d (ps ">=") || containsSub d (ps "<=")
            then d else pipTarget d := by
  intro l
  induction l with
  | nil => intro acc x hx; exact Or.inl hx
  | cons d t ih =>
    intro acc x hx
    rw [List.foldl_cons] at hx
    rcases ih _ x hx with hacc | ⟨e, he, hxe⟩
    · by_cases hv : (containsSub d (ps "==") || containsSub d (ps ">=") ||
          containsSub d (ps "<=")) = true
      · rw [if_pos hv] at hacc
        rcases List.mem_append.mp hacc with h1 | h2
        · exact Or.inl h1
        · refine Or.inr ⟨d, List.mem_cons_self _ _, ?_⟩
          rw [if_pos hv]
          simpa using h2
      · rw [if_neg hv] at hacc
        simp only at hacc
        by_cases hm : pipTarget d ∈ acc
        · rw [if_pos hm] at hacc
          exact Or.inl hacc
        · rw [if_neg hm] at hacc
          rcases List.mem_append.mp hacc with h1 | h2
          · exact Or.inl h1
          · refine Or.inr ⟨d, List.mem_cons_self _ _, ?_⟩
            rw [if_neg hv]
            simpa using h2
    · exact Or.inr ⟨e, List.mem_cons_of_mem _ he, hxe⟩

/-- C5 (amended): for Python sources with no `REQUIRES:` directive, the
extractor output avoids the *code's* filter sets: the built-in module set and
the project-internal set `{src, app, tests, test, config, utils, models,
schemas, database, api, core, services, controllers, views, main}` (which,
unlike the claim's set, contains `test` and lacks `lib` and `common`), and
contains no empty entry, no `#`-entry, and no literal `none`. -/
theorem C5_dependency_filter_amended (code : PStr)
    (hreq : firstSome requiresAt code = none) :
    ∀ x ∈ extractDependenciesPy code,
      x ∉ builtinModules ∧ x ∉ projectModules ∧ x ≠ [] ∧
        startsWithL x (ps "#") = false ∧ x ≠ ps "none" := by
  intro x hx
  simp only [extractDependenciesPy, hreq, List.append_nil] at hx
  unfold dedupFirst at hx
  have hx2 := mem_dedupFirstAux hx
  rcases mem_normFold _ _ _ hx2 with hemp | ⟨d, hd, hxd⟩
  · cases hemp
  · have hdmem := List.mem_filter.mp hd
    have hword : d ≠ [] ∧ ∀ c ∈ d, isWordChar c = true := by
      rcases List.mem_append.mp hdmem.1 with h1 | h2
      · rcases mem_findLineAnchored h1 with ⟨s2, n, hk⟩
        exact importKwAt_some hk
      · rcases mem_findLineAnchored h2 with ⟨s2, n, hk⟩
        exact importKwAt_some hk
    have hpred := hdmem.2
    simp only [Bool.and_eq_true, decide_eq_true_eq, Bool.not_eq_true'] at hpred
    have hstrip : pyStrip d = d := pyStrip_word hword.2
    rw [hstrip] at hpred
    rw [word_no_verspec hword.2] at hxd
    simp only [Bool.false_eq_true, if_false] at hxd
    rw [pipTarget_word hword.2] at hxd
    cases hget : assocGet moduleToPip d with
    | none =>
      rw [hget, Option.getD_none] at hxd
      subst hxd
      have hb := hpred.1.1.2
      have hp := hpred.1.2
      have hn := hpred.2
      refine ⟨?_, ?_, hword.1, ?_, ?_⟩
      · intro hmem
        exact hb (by rw [builtin_lower x hmem]; exact hmem)
      · intro hmem
        exact hp (by rw [project_lower x hmem]; exact hmem)
      · cases hxe : x with
        | nil => exact absurd hxe hword.1
        | cons c t =>
          have hcw : isWordChar c = true := hword.2 c (hxe ▸ List.mem_cons_self c t)
          have hcne : c ≠ '#' := fun he => absurd (he ▸ hcw) (by decide)
          show startsWithL (c :: t) (ps "#") = false
          simp [startsWithL, ps, hcne]
      · intro heq
        rw [heq] at hn
        revert hn
        decide
    | some v =>
      rw [hget, Option.getD_some] at hxd
      subst hxd
      exact pipValues_ok _ (List.mem_map_of_mem Prod.snd (assocGet_mem hget))

/-- C5 witness: applying the amended theorem to a concrete source. -/
theorem C5_witness :
    firstSome requiresAt (ps "import flask") = none ∧
    ps "flask" ∈ extractDependenciesPy (ps "import flask") ∧
    (ps "flask" ∉ builtinModules ∧ ps "flask" ∉ projectModules ∧ ps "flask" ≠ [] ∧
      startsWithL (ps "flask") (ps "#") = false ∧ ps "flask" ≠ ps "none") :=
  ⟨by decide, by decide,
   C5_dependency_filter_amended (ps "import flask") (by decide) (ps "flask") (by decide)⟩

/-- C5 counterexample: `import lib` survives the filter (the code's set lacks
`lib`), and a dotted `REQUIRES: os.path` entry is reduced to its top segment
`os` only *after* the stdlib filter ran, so the output contains both a name
from the claim's project-internal set and a standard-library name. -/
theorem C5_counterexample :
    extractDependenciesPy (ps "import lib\n# REQUIRES: os.path") = [ps "lib", ps "os"] ∧
    ps "lib" ∈ claimedProjectInternalSet ∧ ps "os" ∈ builtinModules := by
  decide

/-! ## C4 lemmas: dict-style keep-last de-duplication -/

theorem lookupA_updAssoc (l : List (PStr × PStr)) (k v k2 : PStr) :
    lookupA (updAssoc l k v) k2 = if k2 = k then some v else lookupA l k2 := by
  induction l with
  | nil =>
    simp only [updAssoc, lookupA]
    by_cases h : k = k2
    · rw [if_pos h, if_pos h.symm]
    · rw [if_neg h, if_neg (fun he => h he.symm)]
  | cons p t ih =>
    simp only [updAssoc]
    by_cases h1 : p.1 = k
    · rw [if_pos h1]
      simp only [lookupA]
      by_cases h2 : p.1 = k2
      · rw [if_pos h2, if_pos (h2 ▸ h1 ▸ rfl)]
      · have h3 : ¬ k2 = k := fun he => h2 (h1.trans he.symm)
        rw [if_neg h2, if_neg h3, if_neg h2]
    · rw [if_neg h1]
      simp only [lookupA]
      by_cases h2 : p.1 = k2
      · have h3 : ¬ k2 = k := fun he => h1 (h2.trans he)
        rw [if_pos h2, if_neg h3, if_pos h2]
      · rw [if_neg h2, ih, if_neg h2]

theorem hasKey_iff (l : List (PStr × PStr)) (k : PStr) :
    hasKey l k = true ↔ k ∈ l.map Prod.fst := by
  induction l with
  | nil => simp [hasKey]
  | cons p t ih =>
    simp only [hasKey, List.map_cons, List.mem_cons]
    by_cases h : p.1 = k
    · rw [if_pos h]
      simp [h]
    · rw [if_neg h]
      constructor
      · intro hk
        exact Or.inr (ih.mp hk)
      · intro hk
        rcases hk with he | hm
        · exact absurd he.symm h
        · exact ih.mpr hm

theorem keys_updAssoc (l : List (PStr × PStr)) (k v : PStr) :
    (updAssoc l k v).map Prod.fst =
      if hasKey l k then l.map Prod.fst else l.map Prod.fst ++ [k] := by
  induction l with
  | nil => simp [updAssoc, hasKey]
  | cons p t ih =>
    simp only [updAssoc, hasKey]
    by_cases h : p.1 = k
    · simp [h]
    · simp only [if_neg h, List.map_cons, ih]
      by_cases h2 : hasKey t k
      · simp [h2]
      · simp [h2]

theorem dedupFirstAux_congr {s1 s2 : List PStr} (h : ∀ x, x ∈ s1 ↔ x ∈ s2) :
    ∀ l, dedupFirstAux s1 l = dedupFirstAux s2 l := by
  intro l
  induction l generalizing s1 s2 h with
  | nil => rfl
  | cons d t ih =>
    simp only [dedupFirstAux]
    by_cases hd : d ∈ s1
    · rw [if_pos hd, if_pos ((h d).mp hd)]
      exact ih h
    · rw [if_neg hd, if_neg (fun hm => hd ((h d).mpr hm))]
      congr 1
      exact ih (fun x => by
        simp only [List.mem_cons]
        exact or_congr Iff.rfl (h x))

theorem dedupFirstAux_nodup :
    ∀ (l seen : List PStr),
      (dedupFirstAux seen l).Nodup ∧ ∀ x ∈ dedupFirstAux seen l, x ∉ seen := by
  intro l
  induction l with
  | nil => intro seen; exact ⟨List.nodup_nil, fun x hx => absurd hx (List.not_mem_nil x)⟩
  | cons d t ih =>
    intro seen
    simp only [dedupFirstAux]
    by_cases hd : d ∈ seen
    · rw [if_pos hd]
      exact ih seen
    · rw [if_neg hd]
      have ⟨hnd, hns⟩ := ih (d :: seen)
      refine ⟨List.nodup_cons.mpr ⟨?_, hnd⟩, ?_⟩
      · intro hmem
        exact hns d hmem (List.mem_cons_self d seen)
      · intro x hx
        rcases List.mem_cons.mp hx with rfl | hm
        · exact hd
        · exact fun hs => hns x hm (List.mem_cons_of_mem d hs)

theorem foldD_lookup :
    ∀ (entries : List (PStr × PStr)) (st : List (PStr × PStr) × Bool) (k : PStr),
      lookupA (entries.foldl
          (fun acc e => (updAssoc acc.1 e.1 e.2, acc.2 || hasKey acc.1 e.1)) st).1 k =
        match lastVal entries k with
        | some v => some v
        | none => lookupA st.1 k := by
  intro entries
  induction entries with
  | nil => intro st k; rfl
  | cons e t ih =>
    intro st k
    rw [List.foldl_cons, ih]
    simp only [lookupA_updAssoc, lastVal]
    cases lastVal t k with
    | some v => rfl
    | none =>
      by_cases h : k = e.1
      · rw [if_pos h, if_pos (h ▸ rfl)]
      · rw [if_neg h, if_neg (fun he => h he.symm)]

theorem foldD_keys :
    ∀ (entries : List (PStr × PStr)) (st : List (PStr × PStr) × Bool),
      (entries.foldl
          (fun acc e => (updAssoc acc.1 e.1 e.2, acc.2 || hasKey acc.1 e.1)) st).1.map
          Prod.fst =
        st.1.map Prod.fst ++ dedupFirstAux (st.1.map Prod.fst) (entries.map Prod.fst) := by
  intro entries
  induction entries with
  | nil => intro st; simp [dedupFirstAux]
  | cons e t ih =>
    intro st
    rw [List.foldl_cons, ih]
    simp only [keys_updAssoc, List.map_cons, dedupFirstAux]
    by_cases h : hasKey st.1 e.1 = true
    · have hm : e.1 ∈ st.1.map Prod.fst := (hasKey_iff st.1 e.1).mp h
      simp [h, hm]
    · have hb : hasKey st.1 e.1 = false := by
        cases hk : hasKey st.1 e.1
        · rfl
        · exact absurd hk h
      have hm : e.1 ∉ st.1.map Prod.fst := fun hmm => h ((hasKey_iff st.1 e.1).mpr hmm)
      simp only [hb, Bool.false_eq_true, if_false, if_neg hm]
      rw [@dedupFirstAux_congr (st.1.map Prod.fst ++ [e.1])
        (e.1 :: st.1.map Prod.fst) (fun x => by simp [or_comm]) (t.map Prod.fst)]
      simp

theorem foldD_warned :
    ∀ (entries : List (PStr × PStr)) (st : List (PStr × PStr) × Bool),
      (st.1.map Prod.fst).Nodup →
      (entries.foldl
          (fun acc e => (updAssoc acc.1 e.1 e.2, acc.2 || hasKey acc.1 e.1)) st).2 =
        (st.2 || !decide ((st.1.map Prod.fst ++ entries.map Prod.fst).Nodup)) := by
  intro entries
  induction entries with
  | nil =>
    intro st hnd
    simp [decide_eq_true hnd]
  | cons e t ih =>
    intro st hnd
    rw [List.foldl_cons]
    by_cases h : hasKey st.1 e.1 = true
    · have hnd2 : ((updAssoc st.1 e.1 e.2).map Prod.fst).Nodup := by
        rw [keys_updAssoc]
        simp only [h, if_true]
        exact hnd
      rw [ih _ hnd2]
      have hmem : e.1 ∈ st.1.map Prod.fst := (hasKey_iff st.1 e.1).mp h
      have hnotnodup : ¬ (st.1.map Prod.fst ++ List.map Prod.fst (e :: t)).Nodup := by
        rw [List.map_cons]
        intro hcon
        exact (List.nodup_append.mp hcon).2.2 hmem (List.mem_cons_self _ _)
      rw [h, decide_eq_false hnotnodup]
      simp
    · have hnmem : e.1 ∉ st.1.map Prod.fst := fun hm => h ((hasKey_iff st.1 e.1).mpr hm)
      have hb : hasKey st.1 e.1 = false := by
        cases hk : hasKey st.1 e.1
        · rfl
        · exact absurd hk h
      have hkeys : (updAssoc st.1 e.1 e.2).map Prod.fst = st.1.map Prod.fst ++ [e.1] := by
        rw [keys_updAssoc]
        simp [hb]
      have hnd2 : ((updAssoc st.1 e.1 e.2).map Prod.fst).Nodup := by
        rw [hkeys, List.nodup_append]
        exact ⟨hnd, List.nodup_singleton _, by
          intro x hx hx2
          rcases List.mem_singleton.mp hx2 with rfl
          exact hnmem hx⟩
      rw [ih _ hnd2, hb]
      simp only [Bool.or_false]
      congr 2
      rw [hkeys, List.append_assoc]
      rfl

theorem mem_lookupA {l : List (PStr × PStr)} {k v : PStr}
    (hnd : (l.map Prod.fst).Nodup) (hm : (k, v) ∈ l) : lookupA l k = some v := by
  induction l with
  | nil => cases hm
  | cons p t ih =>
    simp only [lookupA]
    rcases List.mem_cons.mp hm with rfl | hmt
    · rw [if_pos rfl]
    · have hnd2 := List.nodup_cons.mp (List.map_cons Prod.fst p t ▸ hnd)
      by_cases h : p.1 = k
      · exfalso
        apply hnd2.1
        rw [h]
        exact List.mem_map_of_mem Prod.fst hmt
      · rw [if_neg h]
        exact ih hnd2.2 hmt

/-- C4 (amended): `generate_project_code` de-duplicates FILE-marker files by
filename keeping the body of the last occurrence, preserving first-seen
order, and flags a warning exactly when a duplicate filename occurs; the
single-file `generate_code` splitter performs no de-duplication — it returns
one artifact per FILE marker, so duplicate markers yield duplicate filenames. -/
theorem C4_dedup_amended (text langValue : PStr) :
    ((generateProjectFiles text langValue).1.map Prod.fst).Nodup ∧
    (generateProjectFiles text langValue).1.map Prod.fst =
      dedupFirst ((projParsedEntries text langValue).map Prod.fst) ∧
    (∀ k v, (k, v) ∈ (generateProjectFiles text langValue).1 →
      lastVal (projParsedEntries text langValue) k = some v) ∧
    ((generateProjectFiles text langValue).2 = true ↔
      ¬ ((projParsedEntries text langValue).map Prod.fst).Nodup) ∧
    (genCodeMarkerFiles text).map Prod.fst =
      (markerSections genMarkerLine (splitNl text)).map (fun sec => pyStrip sec.1) := by
  have hkeys : (generateProjectFiles text langValue).1.map Prod.fst =
      dedupFirst ((projParsedEntries text langValue).map Prod.fst) := by
    unfold generateProjectFiles dedupKeepLast dedupFirst
    rw [foldD_keys]
    rfl
  have hnd : ((generateProjectFiles text langValue).1.map Prod.fst).Nodup := by
    rw [hkeys]
    exact (dedupFirstAux_nodup _ []).1
  refine ⟨hnd, hkeys, ?_, ?_, ?_⟩
  · intro k v hm
    have hl : lookupA (generateProjectFiles text langValue).1 k = some v :=
      mem_lookupA hnd hm
    unfold generateProjectFiles dedupKeepLast at hl
    rw [foldD_lookup] at hl
    cases hlast : lastVal (projParsedEntries text langValue) k with
    | none => rw [hlast] at hl; cases hl
    | some w =>
      rw [hlast] at hl
      exact hl
  · unfold generateProjectFiles dedupKeepLast
    rw [foldD_warned _ _ (by simp)]
    simp
  · unfold genCodeMarkerFiles
    rw [List.map_map]
    rfl

/-- C4 counterexample: through the single-file `generate_code` pipeline, a
response with two `# FILE: a.py` markers yields a bundle whose filenames are
NOT pairwise distinct (both entries are kept, no warning, no overwrite). -/
theorem C4_counterexample :
    (genCodeFilesFromResponse (ps "# FILE: a.py\nx = 1\n# FILE: a.py\ny = 2")
        (ps "python")).map Prod.fst = [ps "a.py", ps "a.py"] ∧
    ¬ ((genCodeFilesFromResponse (ps "# FILE: a.py\nx = 1\n# FILE: a.py\ny = 2")
        (ps "python")).map Prod.fst).Nodup := by
  decide

/-- C4 witness: on a concrete duplicated response, the kept body is the last
occurrence, via the amended theorem. -/
theorem C4_witness :
    ((ps "a.py", ps "y = 2") ∈
      (generateProjectFiles (ps "# FILE: a.py\nx = 1\n# FILE: a.py\ny = 2")
        (ps "python")).1) ∧
    lastVal (projParsedEntries (ps "# FILE: a.py\nx = 1\n# FILE: a.py\ny = 2")
        (ps "python")) (ps "a.py") = some (ps "y = 2") :=
  ⟨by decide,
   (C4_dedup_amended (ps "# FILE: a.py\nx = 1\n# FILE: a.py\ny = 2")
       (ps "python")).2.2.1 (ps "a.py") (ps "y = 2") (by decide)⟩

/-! ## C6 / C9: the JVM build temp-directory lifecycle and error assembly -/

theorem parseJavaErrors_fst_ne_nil (x : PStr) : (parseJavaErrors x).1 ≠ [] := by
  simp only [parseJavaErrors]
  split
  · simp
  · rename_i h
    exact h

/-- C6 (amended): in `_build_java` the temp directory is removed exactly on
the successful-compile path (it leaks on the no-public-class, Maven-missing,
compile-failure, timeout, and exception paths); in `_build_java_project` it
is removed exactly when the compile subprocess ran to completion (success or
nonzero exit), and leaks on the no-Java-files, Maven-missing, timeout, and
exception paths. -/
theorem C6_tempdir_amended (env : MavenEnv) (code : PStr) (deps : List JDep)
    (files : List (PStr × PStr)) (depsP : List JDep) :
    ((buildJava env code deps).tempRemoved = true ↔
      (buildJava env code deps).result.status = ps "success") ∧
    ((buildJavaProject env files depsP).tempRemoved = true ↔
      (files.filter (fun f => endsWithL f.1 (ps ".java")) ≠ [] ∧
        env.mvnPath ≠ none ∧ env.compile.isCompleted = true)) := by
  constructor
  · unfold buildJava
    split
    · simp [ps]
    · split
      · simp [ps]
      · split
        · split
          · simp [ps]
          · simp [ps]
        · simp [ps]
        · simp [ps]
        · simp [ps]
  · unfold buildJavaProject
    split
    · rename_i hjf
      exact iff_of_false (fun h => Bool.noConfusion h) (fun hcon => hcon.1 hjf)
    · rename_i hjf
      split
      · rename_i hm
        exact iff_of_false (fun h => Bool.noConfusion h) (fun hcon => hcon.2.1 hm)
      · rename_i mp hm
        split
        · rename_i rc out err hcm
          split
          · exact iff_of_true rfl
              ⟨hjf, by rw [hm]; simp, by rw [hcm]; rfl⟩
          · exact iff_of_true rfl
              ⟨hjf, by rw [hm]; simp, by rw [hcm]; rfl⟩
        · rename_i m hcm
          refine iff_of_false (fun h => Bool.noConfusion h) (fun hcon => ?_)
          have h2 := hcon.2.2
          rw [hcm] at h2
          exact absurd h2 (by simp [CompileOutcome.isCompleted])
        · rename_i m hcm
          refine iff_of_false (fun h => Bool.noConfusion h) (fun hcon => ?_)
          have h2 := hcon.2.2
          rw [hcm] at h2
          exact absurd h2 (by simp [CompileOutcome.isCompleted])
        · rename_i m hcm
          refine iff_of_false (fun h => Bool.noConfusion h) (fun hcon => ?_)
          have h2 := hcon.2.2
          rw [hcm] at h2
          exact absurd h2 (by simp [CompileOutcome.isCompleted])

/-- C6 counterexample: on the compile-failure exit path of `_build_java` the
temp directory was created but is NOT removed, refuting "removed on every
exit path". -/
theorem C6_counterexample :
    (buildJava c6Env (ps "public class A \x7b \x7d") []).result.status = ps "error" ∧
    (buildJava c6Env (ps "public class A \x7b \x7d") []).tempCreated = true ∧
    (buildJava c6Env (ps "public class A \x7b \x7d") []).tempRemoved = false := by
  decide

/-- C9 (amended): on nonzero compile exit, `_build_java` appends up to **5**
stdout lines containing `[ERROR]` after the parsed errors, while
`_build_java_project` appends up to 10 such lines (stripped). -/
theorem C9_maven_error_lines_amended (env : MavenEnv) (code : PStr) (deps : List JDep)
    (files : List (PStr × PStr)) (depsP : List JDep) (rc : Int) (out err : PStr)
    (hc : env.compile = CompileOutcome.completed rc out err) (hrc : rc ≠ 0) :
    ((firstSome publicClassAt code).isSome = true →
      ¬(env.mvnPath = none ∧ env.mvnwPath = none) →
      (buildJava env code deps).result.errors =
        (parseJavaErrors (err ++ ps "\n" ++ out)).1 ++
          (if containsSub out (ps "[ERROR]") then
            ((splitNl out).filter (fun l => containsSub l (ps "[ERROR]"))).take 5
          else [])) ∧
    (files.filter (fun f => endsWithL f.1 (ps ".java")) ≠ [] →
      env.mvnPath ≠ none →
      (buildJavaProject env files depsP).result.errors =
        (parseJavaErrors (err ++ ps "\n" ++ out)).1 ++
          (if containsSub out (ps "[ERROR]") then
            ((((splitNl out).filter (fun l => containsSub l (ps "[ERROR]"))).map pyStrip).take 10)
          else [])) := by
  constructor
  · intro hpc hmvn
    unfold buildJava
    rw [hc]
    split
    · rename_i heq
      rw [heq] at hpc
      cases hpc
    · split
      · rename_i hm
        exact absurd hm hmvn
      · simp [hrc]
  · intro hjf hmvn
    unfold buildJavaProject
    rw [hc]
    rw [if_neg hjf]
    cases hmp : env.mvnPath with
    | none => exact absurd hmp hmvn
    | some mp =>
      have hne : (parseJavaErrors (err ++ (ps "\n" ++ out))).1 ++
          (if containsSub out (ps "[ERROR]") = true then
            List.take 10 (List.map pyStrip
              (List.filter (fun l => containsSub l (ps "[ERROR]")) (splitNl out)))
          else []) ≠ [] := by
        intro hcon
        exact absurd (List.append_eq_nil.mp hcon).1 (parseJavaErrors_fst_ne_nil _)
      simp [hrc, hne]

/-- C9 witness: the amended theorem applied to a concrete failing compile. -/
theorem C9_witness :
    ((firstSome publicClassAt (ps "public class A \x7b \x7d")).isSome = true) ∧
    (buildJava c9WEnv (ps "public class A \x7b \x7d") []).result.errors =
      (parseJavaErrors ((ps "") ++ ps "\n" ++ ps "[ERROR] a\n[ERROR] b")).1 ++
        (if containsSub (ps "[ERROR] a\n[ERROR] b") (ps "[ERROR]") then
          ((splitNl (ps "[ERROR] a\n[ERROR] b")).filter
            (fun l => containsSub l (ps "[ERROR]"))).take 5
        else []) :=
  ⟨by decide,
   (C9_maven_error_lines_amended c9WEnv (ps "public class A \x7b \x7d") []
      [(ps "A.java", ps "public class A \x7b \x7d")] [] 1
      (ps "[ERROR] a\n[ERROR] b") (ps "") rfl (by decide)).1 (by decide) (by decide)⟩

/-- C9 counterexample: with six `[ERROR]` stdout lines, the single-file build
appends only five of them — its error list differs from what "up to 10
appended lines" would produce. -/
theorem C9_counterexample :
    ((splitNl c9Out).filter (fun l => containsSub l (ps "[ERROR]"))).length = 6 ∧
    (buildJava c9Env (ps "public class A \x7b \x7d") []).result.errors ≠
      (parseJavaErrors ((ps "") ++ ps "\n" ++ c9Out)).1 ++
        ((splitNl c9Out).filter (fun l => containsSub l (ps "[ERROR]"))).take 10 := by
  decide

/-! ### Orchestrator loop lemmas (C1, C3) -/

theorem sfLoop_invariant (o : SFOracle) (lang : PStr) (maxIter : Nat) (n : Nat) :
    ∀ (i : Nat) (ctx : PStr) (st : SessionM) (tr : List (Nat × PStr)),
      st.currentIteration = st.iterations.length →
      i = st.iterations.length + 1 →
      i + n ≤ maxIter + 1 →
      (sfLoop o lang maxIter n i ctx st tr).1.currentIteration =
        (sfLoop o lang maxIter n i ctx st tr).1.iterations.length ∧
      (sfLoop o lang maxIter n i ctx st tr).1.currentIteration ≤ maxIter := by
  induction n with
  | zero =>
    intro i ctx st tr h1 h2 h3
    simp only [sfLoop]
    exact ⟨h1, by omega⟩
  | succ m ih =>
    intro i ctx st tr h1 h2 h3
    simp only [sfLoop]
    split
    · apply ih
      · simp [List.length_append]
        omega
      · simp [List.length_append]
        omega
      · omega
    · refine ⟨?_, ?_⟩
      · simp [List.length_append]
        omega
      · simp
        omega

theorem projLoop_current (o : ProjOracle) (maxIter : Nat) (n : Nat) :
    ∀ (i : Nat) (st : ProjSessionM) (tr : List (Nat × Option PStr)),
      (projLoop o maxIter n i st tr).1.currentIteration = st.currentIteration := by
  induction n with
  | zero => intro i st tr; rfl
  | succ m ih =>
    intro i st tr
    simp only [projLoop]
    repeat' split
    all_goals first | exact ih _ _ _ | rfl

theorem projLoop_len (o : ProjOracle) (maxIter : Nat) (n : Nat) :
    ∀ (i : Nat) (st : ProjSessionM) (tr : List (Nat × Option PStr)),
      (projLoop o maxIter n i st tr).1.iterations.length ≤ st.iterations.length + n := by
  induction n with
  | zero => intro i st tr; simp [projLoop]
  | succ m ih =>
    intro i st tr
    simp only [projLoop]
    repeat' split
    all_goals first
      | exact le_trans (ih _ _ _)
          (by simp only [List.length_append, List.length_cons, List.length_nil]; omega)
      | (simp only [List.length_append, List.length_cons, List.length_nil]; omega)

/-- C1 (amended): in `generate_code`, after the loop ends
`current_iteration = len(iterations)` and `current_iteration ≤ max_iterations`
(each loop pass assigns `current_iteration = i` and appends exactly one log);
in `generate_project`, `current_iteration` is never assigned and stays at its
schema default 0 (hence `0 ≤ current_iteration ≤ max_iterations` holds) and
`len(iterations) ≤ max_iterations`, but `len(iterations) = current_iteration`
fails as soon as one iteration runs. -/
theorem C1_iteration_invariants_amended (o : SFOracle) (oP : ProjOracle)
    (lang : PStr) (maxIter maxIterP : Nat) :
    ((generateCodeM o lang maxIter).1.currentIteration =
       (generateCodeM o lang maxIter).1.iterations.length ∧
     (generateCodeM o lang maxIter).1.currentIteration ≤ maxIter) ∧
    ((generateProjectM oP maxIterP).1.currentIteration = 0 ∧
     (generateProjectM oP maxIterP).1.iterations.length ≤ maxIterP) := by
  constructor
  · have h := sfLoop_invariant o lang maxIter maxIter 1 (ps "")
      { maxIterations := maxIter } [] rfl rfl (by omega)
    simp only [generateCodeM]
    split
    · exact ⟨h.1, h.2⟩
    · exact h
  · simp only [generateProjectM]
    split
    · exact ⟨rfl, Nat.zero_le _⟩
    · have hc := projLoop_current oP maxIterP maxIterP 1 { maxIterations := maxIterP } []
      have hl := projLoop_len oP maxIterP maxIterP 1 { maxIterations := maxIterP } []
      constructor
      · split
        · exact hc
        · exact hc
      · split
        · simpa using hl
        · simpa using hl

/-- C1 counterexample: a project run whose generator returns no files executes
one iteration; the session records one iteration log while `current_iteration`
is still 0, so `len(iterations) = current_iteration` fails on the project path. -/
theorem C1_counterexample :
    (generateProjectM c1Proj 1).1.iterations.length = 1 ∧
    (generateProjectM c1Proj 1).1.currentIteration = 0 ∧
    (generateProjectM c1Proj 1).1.iterations.length ≠
      (generateProjectM c1Proj 1).1.currentIteration := by
  decide

theorem sfLoop_snd (o : SFOracle) (lang : PStr) (maxIter : Nat) (n : Nat) :
    ∀ (i : Nat) (ctx : PStr) (st st2 : SessionM) (tr : List (Nat × PStr)),
      (sfLoop o lang maxIter n i ctx st tr).2 = (sfLoop o lang maxIter n i ctx st2 tr).2 := by
  induction n with
  | zero => intro i ctx st st2 tr; rfl
  | succ m ih =>
    intro i ctx st st2 tr
    simp only [sfLoop]
    split
    · exact ih _ _ _ _ _
    · rfl

theorem sfLoop_trace (o : SFOracle) (lang : PStr) (maxIter : Nat) (n : Nat) :
    ∀ (i : Nat) (ctx : PStr) (st : SessionM) (tr : List (Nat × PStr)),
      ∃ m, (sfLoop o lang maxIter n i ctx st tr).2 =
        tr ++ traceSpec o lang maxIter i ctx m := by
  induction n with
  | zero => intro i ctx st tr; exact ⟨0, by simp [sfLoop, traceSpec]⟩
  | succ nn ih =>
    intro i ctx st tr
    simp only [sfLoop]
    split
    · obtain ⟨m, hm⟩ := ih (i + 1) (sfBody o lang maxIter i ctx).ctxOut st (tr ++ [(i, ctx)])
      exact ⟨m + 1,
        (sfLoop_snd o lang maxIter nn (i + 1) (sfBody o lang maxIter i ctx).ctxOut _ st _).trans
          (hm.trans (by simp [traceSpec]))⟩
    · exact ⟨1, by simp [traceSpec]⟩

theorem projLoop_snd (o : ProjOracle) (maxIter : Nat) (n : Nat) :
    ∀ (i : Nat) (st st2 : ProjSessionM) (tr : List (Nat × Option PStr)),
      (projLoop o maxIter n i st tr).2 = (projLoop o maxIter n i st2 tr).2 := by
  induction n with
  | zero => intro i st st2 tr; rfl
  | succ m ih =>
    intro i st st2 tr
    simp only [projLoop]
    repeat' split
    all_goals first | exact ih _ _ _ _ | rfl

theorem projLoop_trace (o : ProjOracle) (maxIter : Nat) (n : Nat) :
    ∀ (i : Nat) (st : ProjSessionM) (tr : List (Nat × Option PStr)),
      ∃ m, (projLoop o maxIter n i st tr).2 = tr ++ traceSpecP i m := by
  induction n with
  | zero => intro i st tr; exact ⟨0, by simp [projLoop, traceSpecP]⟩
  | succ nn ih =>
    intro i st tr
    simp only [projLoop]
    generalize hctx : (if 1 < i then (none : Option PStr) else some (ps "")) = c0
    repeat' split
    all_goals first
      | (obtain ⟨m, hm⟩ := ih (i + 1) st (tr ++ [(i, c0)])
         exact ⟨m + 1, (projLoop_snd o maxIter nn (i + 1) _ st _).trans
           (hm.trans (by simp [traceSpecP, hctx]))⟩)
      | exact ⟨1, by simp [traceSpecP, hctx]⟩

theorem ctxFromSF_succ (o : SFOracle) (lang : PStr) (maxIter : Nat) :
    ∀ (d i0 : Nat) (c0 : PStr),
      ctxFromSF o lang maxIter i0 c0 (d + 1) =
        (sfBody o lang maxIter (i0 + d) (ctxFromSF o lang maxIter i0 c0 d)).ctxOut := by
  intro d
  induction d with
  | zero => intro i0 c0; rfl
  | succ e ih =>
    intro i0 c0
    have h := ih (i0 + 1) (sfBody o lang maxIter i0 c0).ctxOut
    calc ctxFromSF o lang maxIter i0 c0 (e + 1 + 1)
        = ctxFromSF o lang maxIter (i0 + 1) (sfBody o lang maxIter i0 c0).ctxOut (e + 1) := rfl
      _ = (sfBody o lang maxIter (i0 + 1 + e)
            (ctxFromSF o lang maxIter (i0 + 1) (sfBody o lang maxIter i0 c0).ctxOut e)).ctxOut := h
      _ = (sfBody o lang maxIter (i0 + (e + 1))
            (ctxFromSF o lang maxIter i0 c0 (e + 1))).ctxOut := by
          rw [show i0 + 1 + e = i0 + (e + 1) from by omega]
          rfl

theorem traceSpec_get (o : SFOracle) (lang : PStr) (maxIter : Nat) (m : Nat) :
    ∀ (i0 : Nat) (c0 : PStr) (k : Nat) (e : Nat × PStr),
      (traceSpec o lang maxIter i0 c0 m).get? k = some e →
      e.1 = i0 + k ∧ e.2 = ctxFromSF o lang maxIter i0 c0 k := by
  induction m with
  | zero => intro i0 c0 k e h; simp [traceSpec] at h
  | succ mm ih =>
    intro i0 c0 k e h
    cases k with
    | zero =>
      rw [traceSpec, List.get?_cons_zero] at h
      injection h with h
      subst h
      exact ⟨rfl, rfl⟩
    | succ kk =>
      rw [traceSpec, List.get?_cons_succ] at h
      have h2 := ih (i0 + 1) (sfBody o lang maxIter i0 c0).ctxOut kk e h
      refine ⟨by rw [h2.1]; omega, ?_⟩
      exact h2.2

theorem traceSpecP_get (m : Nat) :
    ∀ (i0 k : Nat) (e : Nat × Option PStr),
      (traceSpecP i0 m).get? k = some e →
      e.1 = i0 + k ∧ e.2 = (if 1 < i0 + k then none else some (ps "")) := by
  induction m with
  | zero => intro i0 k e h; simp [traceSpecP] at h
  | succ mm ih =>
    intro i0 k e h
    cases k with
    | zero =>
      rw [traceSpecP, List.get?_cons_zero] at h
      injection h with h
      subst h
      exact ⟨rfl, rfl⟩
    | succ kk =>
      rw [traceSpecP, List.get?_cons_succ] at h
      have h2 := ih (i0 + 1) kk e h
      refine ⟨by rw [h2.1]; omega, ?_⟩
      rw [h2.2, show i0 + 1 + kk = i0 + (kk + 1) from by omega]

theorem sfBody_ctxOut (o : SFOracle) (lang : PStr) (maxIter i : Nat) (ctx : PStr) :
    (sfBody o lang maxIter i ctx).ctxOut = nextCtxSF o lang maxIter i ctx := by
  cases hs : (o.gen i ctx).success with
  | false => simp [sfBody, nextCtxSF, genCodeOf, hs]
  | true =>
    simp only [sfBody, nextCtxSF, genCodeOf, hs, Bool.not_true, Bool.false_eq_true, if_false]
    repeat' split
    all_goals first
      | rfl
      | (exfalso; simp_all [pyFalsyO])

/-- C3 (amended): in `generate_code`, the error context passed to the Code
Generator at trace position k is the empty string for the first iteration,
and each later iteration receives `nextCtxSF` of the previous one — the
context produced by `format_error_context` on the parsed build or test
failure of the previous iteration, or carried over unchanged when that
iteration produced no code.  In `generate_project`, however, the context is
the empty string at iteration 1 and `None` (never a synthesized retry
context) at every later iteration. -/
theorem C3_error_context_amended (o : SFOracle) (oP : ProjOracle) (lang : PStr)
    (maxIter maxIterP : Nat) :
    (∀ k e, (generateCodeM o lang maxIter).2.get? k = some e →
      e.1 = k + 1 ∧
      (k = 0 → e.2 = ps "") ∧
      ∀ e2, (generateCodeM o lang maxIter).2.get? (k + 1) = some e2 →
        e2.2 = nextCtxSF o lang maxIter (k + 1) e.2) ∧
    (∀ k e, (generateProjectM oP maxIterP).2.get? k = some e →
      e.1 = k + 1 ∧ e.2 = (if k = 0 then some (ps "") else none)) := by
  constructor
  · obtain ⟨m, hm⟩ := sfLoop_trace o lang maxIter maxIter 1 (ps "")
      { maxIterations := maxIter } []
    have htr : (generateCodeM o lang maxIter).2 = traceSpec o lang maxIter 1 (ps "") m := by
      rw [show (generateCodeM o lang maxIter).2 =
          (sfLoop o lang maxIter maxIter 1 (ps "") { maxIterations := maxIter } []).2 from rfl,
        hm, List.nil_append]
    intro k e h
    rw [htr] at h
    have h1 := traceSpec_get o lang maxIter m 1 (ps "") k e h
    refine ⟨by rw [h1.1]; omega, fun hk => ?_, fun e2 h2 => ?_⟩
    · subst hk
      exact h1.2
    · rw [htr] at h2
      have h3 := traceSpec_get o lang maxIter m 1 (ps "") (k + 1) e2 h2
      rw [h3.2, ctxFromSF_succ, sfBody_ctxOut, ← h1.2, Nat.add_comm 1 k]
  · intro k e h
    cases hb : oP.scaffoldOk with
    | false =>
      rw [show (generateProjectM oP maxIterP).2 = [] from by
        simp [generateProjectM, hb]] at h
      simp at h
    | true =>
      obtain ⟨m, hm⟩ := projLoop_trace oP maxIterP maxIterP 1 { maxIterations := maxIterP } []
      rw [show (generateProjectM oP maxIterP).2 =
          (projLoop oP maxIterP maxIterP 1 { maxIterations := maxIterP } []).2 from by
            simp [generateProjectM, hb], hm, List.nil_append] at h
      have h2 := traceSpecP_get m 1 k e h
      refine ⟨by rw [h2.1]; omega, ?_⟩
      rw [h2.2]
      cases k with
      | zero => rfl
      | succ kk =>
        rw [if_pos (by omega : (1 : Nat) < 1 + (kk + 1)), if_neg (by omega : ¬kk + 1 = 0)]

set_option maxRecDepth 16384 in
/-- Witness for C3: a build that fails at every iteration with message `boom`
(max 2 iterations) yields the trace contexts `""` then exactly `nextCtxSF`
of the first entry, which is the `format_error_context` rendering of the
parsed error; a project run yields `""` then `None`. -/
theorem C3_witness :
    (generateCodeM c3O (ps "python") 2).2.get? 0 = some (1, ps "") ∧
    (generateCodeM c3O (ps "python") 2).2.get? 1 = some (2, c3Ctx) ∧
    c3Ctx = nextCtxSF c3O (ps "python") 2 1 (ps "") ∧
    (generateProjectM c3ProjO 2).2.get? 1 = some (2, none) ∧
    ((2 : Nat) = 1 + 1 ∧
      (none : Option PStr) = (if (1 : Nat) = 0 then some (ps "") else none)) :=
  ⟨by decide, by decide,
   ((C3_error_context_amended c3O c3ProjO (ps "python") 2 2).1 0 (1, ps "")
       (by decide)).2.2 (2, c3Ctx) (by decide),
   by decide,
   (C3_error_context_amended c3O c3ProjO (ps "python") 2 2).2 1 (2, none) (by decide)⟩

set_option maxRecDepth 16384 in
/-- C3 counterexample: in a project run whose first iteration fails validation
with a recorded error message, iteration 2 is nevertheless called with `None`,
not with a retry context synthesized by `format_error_context` from that
recorded failure. -/
theorem C3_counterexample :
    (generateProjectM c3CexProj 2).2.get? 1 = some (2, none) ∧
    ((generateProjectM c3CexProj 2).1.iterations.map
        (fun l => l.errorMessage)).get? 0 = some (some (joinNl [ps "bad import"])) ∧
    (none : Option PStr) ≠
      some (formatErrorContext
        (parseError (joinNl [ps "bad import"]) (ps "python") none) 1 2) := by
  decide

end AgentStudio
